import Mathlib

/-!
# L-SMASH Works, AviUtl input plugin: `libavsmash_input.c`

A shallow embedding of the timing logic of `src/AviUtl/libavsmash_input.c`
(edit-list resolution, track binding, audio/video sync gap, forced reseek at the
end of preparation, read-time audio delay) and theorems about it.

Conventions of the embedding.
* Machine integers are mathematical integers (`Int`), with the C conversions
  written out: `to_int32`, `to_int64` (two's complement) and `to_uint32`,
  `to_uint64` (reduction modulo `2^32`, `2^64`).  1-origin indices, loop
  counters and track identifiers are `Nat`.
* The handler structures keep the fields the modelled functions read or write;
  pointers to library objects (`root`, `format_ctx`), log handlers and buffers
  are left out.
* The demuxer and decoder libraries are external collaborators.  What they
  answer for the opened file is collected in the structure `demuxer`.
-/

namespace LibavsmashInput

/-! ## C integer conversions -/

/-- Conversion to a 32-bit two's complement `int`. -/
def to_int32 (x : Int) : Int := (x + 2147483648) % 4294967296 - 2147483648

/-- Conversion to `int64_t`. -/
def to_int64 (x : Int) : Int :=
  (x + 9223372036854775808) % 18446744073709551616 - 9223372036854775808

/-- Conversion to `uint32_t`. -/
def to_uint32 (x : Int) : Int := x % 4294967296

/-- Conversion to `uint64_t`. -/
def to_uint64 (x : Int) : Int := x % 18446744073709551616

/-- The value is representable as a C `int`. -/
def in_int32 (x : Int) : Prop := -2147483648 ≤ x ∧ x ≤ 2147483647

/-- The value is representable as an `int64_t`. -/
def in_int64 (x : Int) : Prop := -9223372036854775808 ≤ x ∧ x ≤ 9223372036854775807

instance (x : Int) : Decidable (in_int32 x) := by unfold in_int32; infer_instance

instance (x : Int) : Decidable (in_int64 x) := by unfold in_int64; infer_instance

/-! ## Handler structures -/

/-- The `libavsmash_video_info_handler_t` of the source file. -/
structure libavsmash_video_info_handler_t where
  /-- uint32_t -/
  media_timescale : Int
  /-- uint64_t -/
  skip_duration : Int
  /-- int64_t -/
  start_pts : Int
  deriving DecidableEq, Repr

/-- The `libavsmash_audio_info_handler_t` of the source file. -/
structure libavsmash_audio_info_handler_t where
  /-- uint32_t -/
  media_timescale : Int
  /-- int64_t -/
  start_pts : Int
  deriving DecidableEq, Repr

/-- Fields of `libavsmash_video_decode_handler_t` (declared in
`common/libavsmash_video.h`) that this file touches. -/
structure libavsmash_video_decode_handler_t where
  /-- uint32_t; 0 while no video track is bound -/
  track_ID : Nat
  /-- uint64_t -/
  media_duration : Int
  /-- uint32_t -/
  media_timescale : Int
  /-- uint32_t -/
  sample_count : Int
  /-- uint64_t -/
  min_cts : Int
  /-- the `order_converter[1].composition_to_decoding` entry; `none` while
  `order_converter` is NULL -/
  order_converter : Option Nat
  /-- uint32_t -/
  last_sample_number : Int
  /-- whether `config.ctx` is non-NULL -/
  ctx : Bool
  /-- whether `frame_buffer` is non-NULL -/
  frame_buffer : Bool := false
  /-- int -/
  seek_mode : Int := 0
  /-- uint32_t -/
  forward_seek_threshold : Int := 0
  deriving DecidableEq, Repr

/-- Fields of `libavsmash_audio_decode_handler_t` (declared in
`common/libavsmash_audio.h`) that this file touches. -/
structure libavsmash_audio_decode_handler_t where
  /-- uint32_t; 0 while no audio track is bound -/
  track_ID : Nat
  /-- uint32_t -/
  frame_count : Int
  /-- uint64_t -/
  next_pcm_sample_number : Int
  /-- whether `config.ctx` is non-NULL -/
  ctx : Bool
  /-- whether `frame_buffer` is non-NULL -/
  frame_buffer : Bool
  deriving DecidableEq, Repr

/-- Fields of `libavsmash_audio_output_handler_t` that this file touches. -/
structure libavsmash_audio_output_handler_t where
  /-- int -/
  output_sample_rate : Int
  /-- uint64_t -/
  skip_decoded_samples : Int
  deriving DecidableEq, Repr

/-- Fields of `libavsmash_video_output_handler_t` that this file touches. -/
structure libavsmash_video_output_handler_t where
  /-- int -/
  vfr2cfr : Int
  /-- uint32_t -/
  cfr_num : Int
  /-- uint32_t -/
  cfr_den : Int
  /-- uint32_t -/
  frame_count : Int
  deriving DecidableEq, Repr

/-- The `libavsmash_handler_t` of the source file. -/
structure libavsmash_handler_t where
  /-- uint32_t -/
  number_of_tracks : Nat
  /-- the field `movie_param.timescale`, uint32_t -/
  movie_timescale : Int
  /-- int -/
  threads : Int
  vih : libavsmash_video_info_handler_t
  vdh : libavsmash_video_decode_handler_t
  aih : libavsmash_audio_info_handler_t
  adh : libavsmash_audio_decode_handler_t
  aoh : libavsmash_audio_output_handler_t
  /-- int64_t -/
  av_gap : Int
  /-- int -/
  av_sync : Int
  voh : libavsmash_video_output_handler_t := ⟨0, 0, 0, 0⟩
  deriving DecidableEq, Repr

/-- Fields of the host-side `lsmash_handler_t` (declared in `lwinput.h`) that this
file touches, together with the private handler (`video_private` or
`audio_private`) the modelled call dereferences. -/
structure lsmash_handler_t where
  /-- int -/
  framerate_num : Int
  /-- int -/
  framerate_den : Int
  /-- uint32_t -/
  video_sample_count : Int
  /-- uint32_t -/
  audio_pcm_sample_count : Int
  /-- the `libavsmash_handler_t` behind `video_private` / `audio_private` -/
  priv : libavsmash_handler_t
  deriving DecidableEq, Repr

/-! ## Read-time audio delay -/

/-- The function `delay_audio`.  The result is the return value, the value left
in `*start`, and the handler after the call. -/
def delay_audio (h : lsmash_handler_t) (start wanted_length audio_delay : Int) :
    Int × Int × lsmash_handler_t :=
  let hp := h.priv
  let end_ := to_int32 (start + wanted_length)
  let audio_delay := to_int32 (audio_delay + hp.av_gap)
  if start < audio_delay ∧ end_ ≤ audio_delay then
    (0, start,
      { h with priv := { hp with adh := { hp.adh with
          next_pcm_sample_number := to_uint32 (h.audio_pcm_sample_count + 1) } } })
  else
    (1, to_int32 (start - audio_delay), h)

/-! ## Edit lists -/

/-- The `lsmash_edit_t` of L-SMASH: one entry of a track's explicit timeline map. -/
structure lsmash_edit_t where
  /-- uint64_t, in movie timescale units -/
  duration : Int
  /-- int64_t, in media timescale units; negative for an empty edit -/
  start_time : Int
  /-- int32_t -/
  rate : Int
  deriving DecidableEq, Repr

/-- The constant `ISOM_EDIT_MODE_EMPTY` of `lsmash.h`: the `start_time` of an empty edit. -/
def ISOM_EDIT_MODE_EMPTY : Int := -1

/-- What the demuxer answers about the explicit timeline map of one track:
`edit_count` is the value of `lsmash_count_explicit_timeline_map` and `get n` the
outcome of `lsmash_get_explicit_timeline_map` for edit number `n` (`none` when the
call returns nonzero). -/
structure timeline_map where
  edit_count : Nat
  get : Nat → Option lsmash_edit_t

/-- The timeline map of a track whose edit list is `edits`: edit number `n`
(1-origin) is the `n`-th entry, and any other number cannot be retrieved. -/
def timeline_map.of_list (edits : List lsmash_edit_t) : timeline_map where
  edit_count := edits.length
  get := fun n => if n = 0 then none else edits.get? (n - 1)

/-- The `AVRational` of libavutil: `int num`, `int den`. -/
structure AVRational where
  num : Int
  den : Int
  deriving DecidableEq, Repr

/-- Modelled from the spec: the external rational-rescale primitive `av_rescale_q`
of libavutil, whose source is not part of this repository.  It computes
`a * bq / cq` exactly and rounds to the nearest integer, halfway cases away from
zero; the result is an `int64_t`. -/
def av_rescale_q (a : Int) (bq cq : AVRational) : Int :=
  let b := bq.num * cq.den
  let c := cq.num * bq.den
  if a < 0 then to_int64 (-((-a * b + c / 2) / c))
  else to_int64 ((a * b + c / 2) / c)

/-- The function `get_empty_duration`, on the timeline map of `(root, track_ID)`.
The result is a `uint64_t`. -/
def get_empty_duration (tm : timeline_map) (movie_timescale media_timescale : Int) : Int :=
  match tm.get 1 with
  | none => 0
  | some edit =>
    if edit.duration ≠ 0 ∧ edit.start_time = ISOM_EDIT_MODE_EMPTY then
      to_uint64 (av_rescale_q (to_int64 edit.duration)
        ⟨1, to_int32 movie_timescale⟩ ⟨1, to_int32 media_timescale⟩)
    else 0

/-- The loop of `get_start_time`, entered with `edit_number`.  The first argument
bounds the number of iterations still to run; `edit_count + 1` is enough for the
loop started at 1 (the `uint32_t` counter does not wrap below
`edit_count = UINT32_MAX`). -/
def get_start_time_loop (tm : timeline_map) : Nat → Nat → Int
  | 0, _ => 0
  | fuel + 1, edit_number =>
    if edit_number ≤ tm.edit_count then
      match tm.get edit_number with
      | none => 0
      | some edit =>
        if edit.duration = 0 then 0
        else if edit.start_time ≥ 0 then edit.start_time
        else get_start_time_loop tm fuel (edit_number + 1)
    else 0

/-- The function `get_start_time`, on the timeline map of `(root, track_ID)`.
The result is an `int64_t`. -/
def get_start_time (tm : timeline_map) : Int :=
  get_start_time_loop tm (tm.edit_count + 1) 1

/-! ## The libraries' answers for the opened file -/

/-- The fields of `lsmash_media_parameters_t` that this file reads. -/
structure lsmash_media_parameters_t where
  /-- uint32_t -/
  handler_type : Int
  /-- uint32_t -/
  timescale : Int
  deriving DecidableEq, Repr

/-- The constant `ISOM_MEDIA_HANDLER_TYPE_VIDEO_TRACK` of `lsmash.h`, the four
character code `vide`. -/
def ISOM_MEDIA_HANDLER_TYPE_VIDEO_TRACK : Int := 1986618469

/-- The constant `ISOM_MEDIA_HANDLER_TYPE_AUDIO_TRACK` of `lsmash.h`, the four
character code `soun`. -/
def ISOM_MEDIA_HANDLER_TYPE_AUDIO_TRACK : Int := 1936684398

/-- The constant `AVMEDIA_TYPE_VIDEO` of libavutil. -/
def AVMEDIA_TYPE_VIDEO : Int := 0

/-- The constant `AVMEDIA_TYPE_AUDIO` of libavutil. -/
def AVMEDIA_TYPE_AUDIO : Int := 1

/-- Outcomes of the library calls made while a file is opened and a track is
bound.  Calls that take a track are indexed by the track identifier. -/
structure demuxer where
  /-- the handler was allocated and `libavsmash_open_file` returned a root -/
  open_ok : Bool
  /-- the field `movie_param.number_of_tracks` -/
  movie_number_of_tracks : Nat
  /-- the field `movie_param.timescale` -/
  movie_timescale : Int
  /-- value of `lsmash_get_track_ID( root, i )`; 0 on failure -/
  get_track_ID : Nat → Nat
  /-- outcome of `lsmash_get_media_parameters`; `none` when it returns nonzero -/
  get_media_parameters : Nat → Option lsmash_media_parameters_t
  /-- return value of `lsmash_construct_timeline` -/
  construct_timeline : Nat → Int
  /-- outcome of `lsmash_get_composition_to_decode_shift_from_media_timeline` (uint32_t);
  `none` when it returns nonzero -/
  get_composition_to_decode_shift : Nat → Option Int
  /-- value of `lsmash_get_media_duration_from_media_timeline`, uint64_t -/
  get_media_duration : Nat → Int
  /-- value of `lsmash_get_sample_count_in_media_timeline`, uint32_t -/
  get_sample_count : Nat → Int
  /-- return value of `get_summaries` -/
  get_summaries : Nat → Int
  /-- effect of `libavsmash_setup_timestamp_info`: from the initial `fps_num`, `fps_den` to
  their final values and to `order_converter[1].composition_to_decoding` when a
  reordering table was built -/
  setup_timestamp_info : Nat → Int → Int → Int × Int × Option Nat
  /-- outcome of `lsmash_get_cts_from_media_timeline( root, track_ID, sample_number, &cts )`
  (uint64_t); `none` when it returns nonzero -/
  get_cts : Nat → Nat → Option Int
  /-- the explicit timeline map of the track -/
  explicit_timeline_map : Nat → timeline_map
  /-- the values `format_ctx->streams[i]->codec->codec_type`, in stream order -/
  stream_codec_types : List Int
  /-- whether `libavsmash_find_decoder` finds a decoder -/
  find_decoder : Nat → Bool
  /-- return value of `avcodec_open2` -/
  avcodec_open2 : Nat → Int

/-- The fields of `reader_option_t` that `open_file` reads. -/
structure reader_option_t where
  threads : Int
  av_sync : Int
  deriving DecidableEq, Repr

/-- A zero-filled `libavsmash_handler_t`, as `lw_malloc_zero` returns it. -/
def libavsmash_handler_zero : libavsmash_handler_t where
  number_of_tracks := 0
  movie_timescale := 0
  threads := 0
  vih := ⟨0, 0, 0⟩
  vdh := ⟨0, 0, 0, 0, 0, none, 0, false, false, 0, 0⟩
  aih := ⟨0, 0⟩
  adh := ⟨0, 0, 0, false, false⟩
  aoh := ⟨0, 0⟩
  av_gap := 0
  av_sync := 0

/-- The function `open_file`; `none` is the NULL return. -/
def open_file (d : demuxer) (opt : reader_option_t) : Option libavsmash_handler_t :=
  if d.open_ok then
    some { libavsmash_handler_zero with
      number_of_tracks := d.movie_number_of_tracks
      movie_timescale := d.movie_timescale
      threads := opt.threads
      av_sync := opt.av_sync }
  else none

/-! ## Track binding -/

/-- How the track loop of `get_first_track_of_type` ends. -/
inductive track_scan where
  /-- the `return -1` inside the loop: a track identifier or the media parameters of
  a track could not be retrieved -/
  | failed
  /-- the `break` at index `i`, with the `track_ID` and `media_param` of that track -/
  | found (i : Nat) (track_ID : Nat) (media_param : lsmash_media_parameters_t)
  /-- the loop ran out: `i > number_of_tracks` -/
  | exhausted
  deriving DecidableEq, Repr

/-- The track loop of `get_first_track_of_type`, entered with index `i`.  The first
argument bounds the number of iterations still to run; `number_of_tracks + 1` is
enough for the loop started at 1. -/
def scan_tracks (d : demuxer) (type : Int) (number_of_tracks : Nat) : Nat → Nat → track_scan
  | 0, _ => track_scan.exhausted
  | fuel + 1, i =>
    if i ≤ number_of_tracks then
      let track_ID := d.get_track_ID i
      if track_ID = 0 then track_scan.failed
      else
        match d.get_media_parameters track_ID with
        | none => track_scan.failed
        | some media_param =>
          if media_param.handler_type = type then track_scan.found i track_ID media_param
          else scan_tracks d type number_of_tracks fuel (i + 1)
    else track_scan.exhausted

/-- The libavformat and libavcodec part of `get_first_track_of_type`, after the
L-SMASH part has bound `track_ID`. -/
def open_decoder (d : demuxer) (h : lsmash_handler_t) (type : Int) (track_ID : Nat) :
    Int × lsmash_handler_t :=
  let hp := h.priv
  let type := if type = ISOM_MEDIA_HANDLER_TYPE_VIDEO_TRACK then AVMEDIA_TYPE_VIDEO
              else AVMEDIA_TYPE_AUDIO
  if d.stream_codec_types.all (fun t => t ≠ type) then (-1, h)
  else
    let hp : libavsmash_handler_t :=
      if type = AVMEDIA_TYPE_VIDEO then { hp with vdh := { hp.vdh with ctx := true } }
      else { hp with adh := { hp.adh with ctx := true } }
    let h : lsmash_handler_t := { h with priv := hp }
    if d.find_decoder track_ID = false then (-1, h)
    else if d.avcodec_open2 track_ID < 0 then (-1, h)
    else (0, h)

/-- The sample whose composition timestamp `get_first_track_of_type` takes as the
minimum one of a video track:
`order_converter ? order_converter[1].composition_to_decoding : 1`. -/
def min_cts_sample_number (order_converter : Option Nat) : Nat :=
  match order_converter with
  | some composition_to_decoding => composition_to_decoding
  | none => 1

/-- The part of `get_first_track_of_type` after the track loop has stopped at the
track `track_ID` with the media parameters `media_param`: the rest of the L-SMASH
part, then `open_decoder`. -/
def bind_track (d : demuxer) (h : lsmash_handler_t) (type : Int) (track_ID : Nat)
    (media_param : lsmash_media_parameters_t) : Int × lsmash_handler_t :=
  let hp := h.priv
  if d.construct_timeline track_ID ≠ 0 then (-1, h)
  else
    match d.get_composition_to_decode_shift track_ID with
    | none => (-1, h)
    | some ctd_shift =>
      let media_duration := d.get_media_duration track_ID
      if type = ISOM_MEDIA_HANDLER_TYPE_VIDEO_TRACK then
        let hp : libavsmash_handler_t := { hp with
          vdh := { hp.vdh with
            track_ID := track_ID
            media_duration := media_duration
            media_timescale := media_param.timescale
            sample_count := d.get_sample_count track_ID }
          vih := { hp.vih with media_timescale := media_param.timescale } }
        if d.get_summaries track_ID ≠ 0 then (-1, { h with priv := hp })
        else
          let fps := d.setup_timestamp_info track_ID 25 1
          let hp : libavsmash_handler_t :=
            { hp with vdh := { hp.vdh with order_converter := fps.2.2 } }
          let h : lsmash_handler_t := { h with
            framerate_num := to_int32 fps.1
            framerate_den := to_int32 fps.2.1
            video_sample_count := hp.vdh.sample_count }
          let min_cts_sample_number :=
            match hp.vdh.order_converter with
            | some composition_to_decoding => composition_to_decoding
            | none => 1
          match d.get_cts track_ID min_cts_sample_number with
          | none => (-1, { h with priv := hp })
          | some min_cts =>
            let hp : libavsmash_handler_t :=
              { hp with vdh := { hp.vdh with min_cts := min_cts } }
            let hp : libavsmash_handler_t :=
              if hp.av_sync ≠ 0 then
                { hp with vih := { hp.vih with
                    start_pts := to_int64 (to_uint64 (hp.vdh.min_cts + ctd_shift
                      + get_empty_duration (d.explicit_timeline_map track_ID)
                          hp.movie_timescale hp.vih.media_timescale))
                    skip_duration := to_uint64 (to_int64 (ctd_shift
                      + get_start_time (d.explicit_timeline_map track_ID))) } }
              else hp
            open_decoder d { h with priv := hp } type track_ID
      else
        let hp : libavsmash_handler_t := { hp with
          adh := { hp.adh with
            track_ID := track_ID
            frame_count := d.get_sample_count track_ID }
          aih := { hp.aih with media_timescale := media_param.timescale } }
        let h : lsmash_handler_t :=
          { h with audio_pcm_sample_count := to_uint32 media_duration }
        if d.get_summaries track_ID ≠ 0 then (-1, { h with priv := hp })
        else if hp.av_sync ≠ 0 then
          match d.get_cts track_ID 1 with
          | none => (-1, { h with priv := hp })
          | some min_cts =>
            let hp : libavsmash_handler_t := { hp with
              aih := { hp.aih with
                start_pts := to_int64 (to_uint64 (min_cts + ctd_shift
                  + get_empty_duration (d.explicit_timeline_map track_ID)
                      hp.movie_timescale hp.aih.media_timescale)) }
              aoh := { hp.aoh with
                skip_decoded_samples := to_uint64 (to_int64 (ctd_shift
                  + get_start_time (d.explicit_timeline_map track_ID))) } }
            open_decoder d { h with priv := hp } type track_ID
        else open_decoder d { h with priv := hp } type track_ID

/-- The function `get_first_track_of_type`.  `h.priv` is the handler the function
selects (`video_private` for the video type, `audio_private` otherwise).  The
result is the return value and the handler after the call. -/
def get_first_track_of_type (d : demuxer) (h : lsmash_handler_t) (type : Int) :
    Int × lsmash_handler_t :=
  match scan_tracks d type h.priv.number_of_tracks (h.priv.number_of_tracks + 1) 1 with
  | track_scan.failed => (-1, h)
  | track_scan.exhausted => (-1, h)
  | track_scan.found _ track_ID media_param => bind_track d h type track_ID media_param

/-! ## Audio preparation -/

/-- Outcomes of the decoder-side calls of `prepare_audio_decoding`. -/
structure audio_preparation where
  /-- whether `av_frame_alloc` returned a buffer -/
  frame_alloc_ok : Bool
  /-- return value of `initialize_decoder_configuration` -/
  initialize_decoder_configuration : Int
  /-- the value of `config->prefer.sample_rate` after the configuration was initialized, int -/
  prefer_sample_rate : Int
  /-- effect of `au_setup_audio_rendering`: from `output_sample_rate` before the call to the
  return value and `output_sample_rate` after it -/
  au_setup_audio_rendering : Int → Int × Int
  /-- effect of `libavsmash_count_overall_pcm_samples`: from the output sample rate and
  `skip_decoded_samples` to the returned count (uint64_t) and the
  `skip_decoded_samples` left behind -/
  count_overall_pcm_samples : Int → Int → Int × Int

/-- The function `prepare_audio_decoding`.  `h.priv` is `audio_private`.  The
result is the return value and the handler after the call. -/
def prepare_audio_decoding (p : audio_preparation) (h : lsmash_handler_t) :
    Int × lsmash_handler_t :=
  let hp := h.priv
  if hp.adh.ctx = false then (0, h)
  else
    let hp : libavsmash_handler_t :=
      { hp with adh := { hp.adh with frame_buffer := p.frame_alloc_ok } }
    if p.frame_alloc_ok = false then (-1, { h with priv := hp })
    else if p.initialize_decoder_configuration ≠ 0 then (-1, { h with priv := hp })
    else
      let hp : libavsmash_handler_t :=
        { hp with aoh := { hp.aoh with output_sample_rate := p.prefer_sample_rate } }
      let setup := p.au_setup_audio_rendering hp.aoh.output_sample_rate
      let hp : libavsmash_handler_t :=
        { hp with aoh := { hp.aoh with output_sample_rate := setup.2 } }
      if setup.1 < 0 then (-1, { h with priv := hp })
      else
        let counted := p.count_overall_pcm_samples hp.aoh.output_sample_rate
          hp.aoh.skip_decoded_samples
        let hp : libavsmash_handler_t :=
          { hp with aoh := { hp.aoh with skip_decoded_samples := counted.2 } }
        let h : lsmash_handler_t := { h with audio_pcm_sample_count := to_uint32 counted.1 }
        if h.audio_pcm_sample_count = 0 then (-1, { h with priv := hp })
        else
          let synced : lsmash_handler_t :=
            if hp.av_sync ≠ 0 ∧ hp.vdh.track_ID ≠ 0 then
              let audio_sample_base : AVRational := ⟨1, hp.aoh.output_sample_rate⟩
              let av_gap := to_int64
                (av_rescale_q hp.aih.start_pts ⟨1, to_int32 hp.aih.media_timescale⟩
                    audio_sample_base
                  - av_rescale_q (to_int64 (to_uint64 (hp.vih.start_pts - hp.vih.skip_duration)))
                      ⟨1, to_int32 hp.vih.media_timescale⟩ audio_sample_base)
              { h with
                audio_pcm_sample_count := to_uint32 (to_int64 (h.audio_pcm_sample_count + av_gap))
                priv := { hp with av_gap := av_gap } }
            else { h with priv := hp }
          (0, { synced with priv := { synced.priv with adh := { synced.priv.adh with
            next_pcm_sample_number := to_uint32 (synced.audio_pcm_sample_count + 1) } } })

/-! ## Double arithmetic on non-negative values

The CFR frame count is computed in `double`.  A non-negative finite `double` is
written as a pair `(p, q)` of naturals with `q > 0`, standing for `p / q`; every
operation computes the exact result and rounds it to 53 significant bits, halves
to the even neighbour (IEEE 754 binary64, round to nearest, each operation rounded
on its own).  The values that occur stay far inside the exponent range, so
overflow and subnormal numbers play no part; a division by zero is not modelled. -/

/-- The integer nearest to `n / d`, a half going to the even neighbour. -/
def round_half_even (n d : Nat) : Nat :=
  if 2 * (n % d) < d then n / d
  else if d < 2 * (n % d) then n / d + 1
  else n / d + n / d % 2

/-- The value `(n / d) * (up / down)` with `n / d` rounded to 53 significant bits:
`n / d` is halved (`d` doubled) while it is at least `2^53` and doubled while it is
below `2^52`, the scaling being undone in `up` and `down`, and then rounded to an
integer.  The first argument bounds the number of scaling steps. -/
def binary64_round_loop : Nat → Nat → Nat → Nat → Nat → Nat × Nat
  | 0, n, d, up, down => (round_half_even n d * up, down)
  | fuel + 1, n, d, up, down =>
    if 9007199254740992 * d ≤ n then binary64_round_loop fuel n (2 * d) (2 * up) down
    else if n < 4503599627370496 * d then binary64_round_loop fuel (2 * n) d up (2 * down)
    else (round_half_even n d * up, down)

/-- The `double` nearest to `n / d`. -/
def binary64_round (n d : Nat) : Nat × Nat :=
  if n = 0 then (0, 1) else binary64_round_loop (n + d + 54) n d 1 1

/-- The rational number a pair stands for. -/
def binary64_value (x : Nat × Nat) : ℚ := (x.1 : ℚ) / (x.2 : ℚ)

/-- Conversion of a non-negative integer to `double`. -/
def binary64_of_int (x : Int) : Nat × Nat := binary64_round x.toNat 1

/-- Division of two `double` values. -/
def binary64_div (x y : Nat × Nat) : Nat × Nat := binary64_round (x.1 * y.2) (x.2 * y.1)

/-- Product of two `double` values. -/
def binary64_mul (x y : Nat × Nat) : Nat × Nat := binary64_round (x.1 * y.1) (x.2 * y.2)

/-- Sum of two `double` values. -/
def binary64_add (x y : Nat × Nat) : Nat × Nat :=
  binary64_round (x.1 * y.2 + y.1 * x.2) (x.2 * y.2)

/-- The value that
`((double)cfr_num / cfr_den) * ((double)media_duration / media_timescale) + 0.5`
leaves in the `uint32_t` `frame_count`: the sum is truncated to an integer and
reduced modulo `2^32`. -/
def cfr_frame_count (cfr_num cfr_den media_duration media_timescale : Int) : Int :=
  let rate := binary64_div (binary64_of_int cfr_num) (binary64_of_int cfr_den)
  let seconds :=
    binary64_div (binary64_of_int media_duration) (binary64_of_int media_timescale)
  let frames := binary64_add (binary64_mul rate seconds) (1, 2)
  to_uint32 (frames.1 / frames.2)

/-- The frame count formula of the specification in exact arithmetic:
`floor(num/den * media_duration/media_timescale + 0.5)`. -/
def cfr_frame_count_formula (num den media_duration media_timescale : Int) : Int :=
  ⌊(num : ℚ) / (den : ℚ) * ((media_duration : ℚ) / (media_timescale : ℚ)) + 1 / 2⌋

/-! ## Video preparation -/

/-- The fields of `video_option_t` that `prepare_video_decoding` reads, and the
outcomes of the decoder-side calls it makes. -/
structure video_preparation where
  /-- the option `seek_mode` -/
  seek_mode : Int
  /-- the option `forward_seek_threshold` -/
  forward_seek_threshold : Int
  /-- the option `vfr2cfr.active` -/
  vfr2cfr_active : Int
  /-- the option `vfr2cfr.framerate_num` -/
  vfr2cfr_framerate_num : Int
  /-- the option `vfr2cfr.framerate_den` -/
  vfr2cfr_framerate_den : Int
  /-- whether `av_frame_alloc` returned a buffer -/
  frame_alloc_ok : Bool
  /-- return value of `libavsmash_create_keyframe_list` -/
  create_keyframe_list : Int
  /-- return value of `initialize_decoder_configuration` -/
  initialize_decoder_configuration : Int
  /-- return value of `au_setup_video_rendering`; 0 on failure -/
  au_setup_video_rendering : Int
  /-- return value of `libavsmash_find_first_valid_video_frame` -/
  find_first_valid_video_frame : Int

/-- The function `prepare_video_decoding`.  `h.priv` is `video_private`.  The
result is the return value and the handler after the call. -/
def prepare_video_decoding (q : video_preparation) (h : lsmash_handler_t) :
    Int × lsmash_handler_t :=
  let hp := h.priv
  if hp.vdh.ctx = false then (0, h)
  else
    let hp : libavsmash_handler_t :=
      { hp with vdh := { hp.vdh with frame_buffer := q.frame_alloc_ok } }
    if q.frame_alloc_ok = false then (-1, { h with priv := hp })
    else
      let hp : libavsmash_handler_t := { hp with vdh := { hp.vdh with
        seek_mode := q.seek_mode
        forward_seek_threshold := to_uint32 q.forward_seek_threshold } }
      if q.create_keyframe_list < 0 then (-1, { h with priv := hp })
      else if q.initialize_decoder_configuration < 0 then (-1, { h with priv := hp })
      else if q.au_setup_video_rendering = 0 then (-1, { h with priv := hp })
      else
        let hp : libavsmash_handler_t :=
          { hp with voh := { hp.voh with vfr2cfr := q.vfr2cfr_active } }
        let planned : lsmash_handler_t :=
          if hp.voh.vfr2cfr ≠ 0 then
            let cfr_num := to_uint32 q.vfr2cfr_framerate_num
            let cfr_den := to_uint32 q.vfr2cfr_framerate_den
            { h with
              framerate_num := q.vfr2cfr_framerate_num
              framerate_den := q.vfr2cfr_framerate_den
              priv := { hp with voh := { hp.voh with
                cfr_num := cfr_num
                cfr_den := cfr_den
                frame_count := cfr_frame_count cfr_num cfr_den hp.vdh.media_duration
                  hp.vdh.media_timescale } } }
          else
            { h with priv := { hp with voh := { hp.voh with
                frame_count := hp.vdh.sample_count } } }
        let h : lsmash_handler_t :=
          { planned with video_sample_count := planned.priv.voh.frame_count }
        if q.find_first_valid_video_frame < 0 then (-1, h)
        else
          (0, { h with priv := { h.priv with vdh := { h.priv.vdh with
            last_sample_number := to_uint32 (h.priv.vdh.sample_count + 1) } } })

/-- The audio start of the sync gap, in output samples: `aih.start_pts` rescaled
from `1 / aih.media_timescale` to `1 / output_sample_rate`. -/
def audio_start_in_samples (hp : libavsmash_handler_t) (output_sample_rate : Int) : Int :=
  av_rescale_q hp.aih.start_pts ⟨1, hp.aih.media_timescale⟩ ⟨1, output_sample_rate⟩

/-- The video start of the sync gap, in output samples:
`vih.start_pts - vih.skip_duration` rescaled from `1 / vih.media_timescale` to
`1 / output_sample_rate`. -/
def video_start_in_samples (hp : libavsmash_handler_t) (output_sample_rate : Int) : Int :=
  av_rescale_q (hp.vih.start_pts - hp.vih.skip_duration) ⟨1, hp.vih.media_timescale⟩
    ⟨1, output_sample_rate⟩

/-! ## Concrete inputs -/

/-- A handler whose private part is zero-filled except for `av_gap`, with the given
`audio_pcm_sample_count`. -/
def handler_with_gap (av_gap audio_pcm_sample_count : Int) : lsmash_handler_t where
  framerate_num := 0
  framerate_den := 0
  video_sample_count := 0
  audio_pcm_sample_count := audio_pcm_sample_count
  priv := { libavsmash_handler_zero with av_gap := av_gap }

/-- An edit list that presents media from tick 100 for 10 ticks and ends with an
edit of duration 0. -/
def edits_media_then_zero : List lsmash_edit_t :=
  [⟨10, 100, 65536⟩, ⟨0, 0, 65536⟩]

/-- An edit list with an empty edit followed by a zero-duration edit and more. -/
def edits_empty_then_zero : List lsmash_edit_t :=
  [⟨5, -1, 65536⟩, ⟨0, 7, 65536⟩, ⟨10, 300, 65536⟩]

/-- An edit list with a leading empty edit of 5 ticks, then media from tick 200. -/
def edits_empty_then_media : List lsmash_edit_t :=
  [⟨5, -1, 65536⟩, ⟨10, 200, 65536⟩, ⟨10, 300, 65536⟩]

/-- An edit list whose first edit is an empty edit of 3 ticks. -/
def edits_empty_three : List lsmash_edit_t :=
  [⟨3, -1, 65536⟩, ⟨10, 200, 65536⟩]

/-- A file with three tracks: an audio track (identifier 10), then two video tracks
(identifiers 20 and 30).  The first video track has an empty edit of one second
followed by media from tick 2002. -/
def demuxer_three_tracks : demuxer where
  open_ok := true
  movie_number_of_tracks := 3
  movie_timescale := 600
  get_track_ID := fun i => if i = 1 then 10 else if i = 2 then 20 else if i = 3 then 30 else 0
  get_media_parameters := fun track_ID =>
    if track_ID = 10 then some ⟨ISOM_MEDIA_HANDLER_TYPE_AUDIO_TRACK, 48000⟩
    else if track_ID = 20 then some ⟨ISOM_MEDIA_HANDLER_TYPE_VIDEO_TRACK, 30000⟩
    else if track_ID = 30 then some ⟨ISOM_MEDIA_HANDLER_TYPE_VIDEO_TRACK, 25⟩
    else none
  construct_timeline := fun _ => 0
  get_composition_to_decode_shift := fun track_ID => if track_ID = 20 then some 1001 else some 0
  get_media_duration := fun track_ID => if track_ID = 10 then 4800000 else 3003000
  get_sample_count := fun track_ID => if track_ID = 10 then 4688 else 3000
  get_summaries := fun _ => 0
  setup_timestamp_info := fun _ _ _ => (30000, 1001, some 1)
  get_cts := fun track_ID _ => if track_ID = 20 then some 1001 else some 0
  explicit_timeline_map := fun track_ID =>
    if track_ID = 20 then timeline_map.of_list [⟨600, -1, 65536⟩, ⟨60000, 2002, 65536⟩]
    else timeline_map.of_list []
  stream_codec_types := [ AVMEDIA_TYPE_AUDIO, AVMEDIA_TYPE_VIDEO]
  find_decoder := fun _ => true
  avcodec_open2 := fun _ => 0

/-- The file of `demuxer_three_tracks` without its audio track. -/
def demuxer_no_audio : demuxer :=
  { demuxer_three_tracks with
    movie_number_of_tracks := 2
    get_track_ID := fun i => if i = 1 then 20 else if i = 2 then 30 else 0 }

/-- Decoder-side answers of a successful audio preparation: 48 kHz output and
480000 counted PCM samples. -/
def audio_preparation_48k : audio_preparation where
  frame_alloc_ok := true
  initialize_decoder_configuration := 0
  prefer_sample_rate := 48000
  au_setup_audio_rendering := fun rate => (0, rate)
  count_overall_pcm_samples := fun _ skip => (480000, skip)

/-- A handler with both tracks bound and sync requested: the audio starts at tick
4800 of 48000 per second, the video at tick 3003 of 30000 per second with 1001 ticks
to skip. -/
def handler_both_bound_sync : lsmash_handler_t where
  framerate_num := 30000
  framerate_den := 1001
  video_sample_count := 3000
  audio_pcm_sample_count := 4800000
  priv := { libavsmash_handler_zero with
    number_of_tracks := 2
    movie_timescale := 600
    vih := ⟨30000, 1001, 3003⟩
    vdh := ⟨20, 3003000, 30000, 3000, 1001, none, 0, true, false, 0, 0⟩
    aih := ⟨48000, 4800⟩
    adh := ⟨10, 4688, 0, true, false⟩
    av_sync := 1 }

/-- A host-side handler around the private handler `hp`, its own fields zero. -/
def handler_of (hp : libavsmash_handler_t) : lsmash_handler_t where
  framerate_num := 0
  framerate_den := 0
  video_sample_count := 0
  audio_pcm_sample_count := 0
  priv := hp

/-- The handler `open_file` builds for `demuxer_three_tracks`, sync requested. -/
def handler_three_tracks_sync : lsmash_handler_t :=
  handler_of { libavsmash_handler_zero with
    number_of_tracks := 3
    movie_timescale := 600
    threads := 1
    av_sync := 1 }

/-- The handler `open_file` builds for `demuxer_three_tracks`, sync not requested. -/
def handler_three_tracks_no_sync : lsmash_handler_t :=
  handler_of { libavsmash_handler_zero with
    number_of_tracks := 3
    movie_timescale := 600
    threads := 1
    av_sync := 0 }

/-- The handler `open_file` builds for `demuxer_no_audio`, sync requested. -/
def handler_no_audio_sync : lsmash_handler_t :=
  handler_of { libavsmash_handler_zero with
    number_of_tracks := 2
    movie_timescale := 600
    threads := 1
    av_sync := 1 }

/-- Options and decoder-side answers of a successful video preparation without
CFR remapping. -/
def video_preparation_vfr : video_preparation where
  seek_mode := 0
  forward_seek_threshold := 10
  vfr2cfr_active := 0
  vfr2cfr_framerate_num := 0
  vfr2cfr_framerate_den := 0
  frame_alloc_ok := true
  create_keyframe_list := 0
  initialize_decoder_configuration := 0
  au_setup_video_rendering := 1
  find_first_valid_video_frame := 0

/-- The file of `demuxer_three_tracks` with reordered video: the reordering table of
a video track sends composition position 1 to decoding position 2, and the first
video track has composition timestamp 10 at sample 1 and 501 at sample 2. -/
def demuxer_reordered : demuxer :=
  { demuxer_three_tracks with
    setup_timestamp_info := fun _ _ _ => (30000, 1001, some 2)
    get_cts := fun track_ID sample_number =>
      if track_ID = 20 then (if sample_number = 2 then some 501 else some 10) else some 0 }

/-- Options and decoder-side answers of a successful video preparation with CFR
remapping to the rate `num / den`. -/
def video_preparation_cfr (num den : Int) : video_preparation where
  seek_mode := 0
  forward_seek_threshold := 10
  vfr2cfr_active := 1
  vfr2cfr_framerate_num := num
  vfr2cfr_framerate_den := den
  frame_alloc_ok := true
  create_keyframe_list := 0
  initialize_decoder_configuration := 0
  au_setup_video_rendering := 1
  find_first_valid_video_frame := 0

/-- A handler with a bound video track of the given media duration, media timescale
and sample count. -/
def handler_video_bound (media_duration media_timescale sample_count : Int) :
    lsmash_handler_t :=
  handler_of { libavsmash_handler_zero with
    number_of_tracks := 1
    movie_timescale := 600
    vih := ⟨media_timescale, 0, 0⟩
    vdh := ⟨20, media_duration, media_timescale, sample_count, 0, none, 0, true, false, 0, 0⟩ }

/-! ## Elementary facts about the conversions -/

theorem to_int32_of_in_int32 {x : Int} (hx : in_int32 x) : to_int32 x = x := by
  unfold in_int32 at hx
  unfold to_int32
  omega

theorem to_int64_of_in_int64 {x : Int} (hx : in_int64 x) : to_int64 x = x := by
  unfold in_int64 at hx
  unfold to_int64
  omega

theorem to_uint32_of_range {x : Int} (h0 : 0 ≤ x) (h1 : x < 4294967296) : to_uint32 x = x := by
  unfold to_uint32
  omega

theorem to_uint64_of_range {x : Int} (h0 : 0 ≤ x) (h1 : x < 18446744073709551616) :
    to_uint64 x = x := by
  unfold to_uint64
  omega

/-! ## `delay_audio` -/

theorem delay_audio_eq_preroll (h : lsmash_handler_t) (start wanted_length audio_delay : Int)
    (hc : start < to_int32 (audio_delay + h.priv.av_gap)
      ∧ to_int32 (start + wanted_length) ≤ to_int32 (audio_delay + h.priv.av_gap)) :
    delay_audio h start wanted_length audio_delay =
      (0, start, { h with priv := { h.priv with adh := { h.priv.adh with
        next_pcm_sample_number := to_uint32 (h.audio_pcm_sample_count + 1) } } }) := by
  simp only [delay_audio, if_pos hc]

theorem delay_audio_eq_read (h : lsmash_handler_t) (start wanted_length audio_delay : Int)
    (hc : ¬ (start < to_int32 (audio_delay + h.priv.av_gap)
      ∧ to_int32 (start + wanted_length) ≤ to_int32 (audio_delay + h.priv.av_gap))) :
    delay_audio h start wanted_length audio_delay =
      (1, to_int32 (start - to_int32 (audio_delay + h.priv.av_gap)), h) := by
  simp only [delay_audio, if_neg hc]

/-- C1: in the pre-roll branch (`start < d` and `start + wanted_length ≤ d` for
`d = audio_delay + av_gap`, neither sum overflowing `int`) `delay_audio` returns 0,
leaves `*start` unchanged and stores `audio_pcm_sample_count + 1` (computed in
`uint32_t`, hence the plain sum whenever the count is below `UINT32_MAX`) in
`next_pcm_sample_number`. -/
theorem delay_audio_preroll (h : lsmash_handler_t) (start wanted_length audio_delay : Int)
    (hd : in_int32 (audio_delay + h.priv.av_gap))
    (hend : in_int32 (start + wanted_length))
    (h1 : start < audio_delay + h.priv.av_gap)
    (h2 : start + wanted_length ≤ audio_delay + h.priv.av_gap) :
    (delay_audio h start wanted_length audio_delay).1 = 0
    ∧ (delay_audio h start wanted_length audio_delay).2.1 = start
    ∧ (delay_audio h start wanted_length audio_delay).2.2.priv.adh.next_pcm_sample_number
        = to_uint32 (h.audio_pcm_sample_count + 1)
    ∧ (0 ≤ h.audio_pcm_sample_count → h.audio_pcm_sample_count < 4294967295 →
        (delay_audio h start wanted_length audio_delay).2.2.priv.adh.next_pcm_sample_number
          = h.audio_pcm_sample_count + 1) := by
  have hc : start < to_int32 (audio_delay + h.priv.av_gap)
      ∧ to_int32 (start + wanted_length) ≤ to_int32 (audio_delay + h.priv.av_gap) := by
    rw [to_int32_of_in_int32 hd, to_int32_of_in_int32 hend]
    exact ⟨h1, h2⟩
  rw [delay_audio_eq_preroll h start wanted_length audio_delay hc]
  refine ⟨rfl, rfl, rfl, ?_⟩
  intro h0 hlt
  exact to_uint32_of_range (by omega) (by omega)

theorem delay_audio_preroll_witness :
    (in_int32 (0 + (handler_with_gap 15 1000).priv.av_gap) ∧ in_int32 (0 + 10)
      ∧ 0 < 0 + (handler_with_gap 15 1000).priv.av_gap
      ∧ 0 + 10 ≤ 0 + (handler_with_gap 15 1000).priv.av_gap)
    ∧ (delay_audio (handler_with_gap 15 1000) 0 10 0).1 = 0
    ∧ (delay_audio (handler_with_gap 15 1000) 0 10 0).2.1 = 0
    ∧ (delay_audio (handler_with_gap 15 1000) 0 10 0).2.2.priv.adh.next_pcm_sample_number
        = 1001 := by
  have hd : in_int32 (0 + (handler_with_gap 15 1000).priv.av_gap) := by decide
  have hend : in_int32 ((0 : Int) + 10) := by decide
  have h1 : 0 < 0 + (handler_with_gap 15 1000).priv.av_gap := by decide
  have h2 : 0 + 10 ≤ 0 + (handler_with_gap 15 1000).priv.av_gap := by decide
  have hw := delay_audio_preroll (handler_with_gap 15 1000) 0 10 0 hd hend h1 h2
  exact ⟨⟨hd, hend, h1, h2⟩, hw.1, hw.2.1, hw.2.2.2 (by decide) (by decide)⟩

/-- C2: outside the pre-roll branch (not both `start < d` and
`start + wanted_length ≤ d`, for `d = audio_delay + av_gap`, neither sum overflowing
`int`) `delay_audio` returns 1, replaces `*start` by `start - d` (as an `int`, hence
the plain difference whenever it is representable) and leaves the whole handler,
in particular `next_pcm_sample_number` and `audio_pcm_sample_count`, as it was. -/
theorem delay_audio_read (h : lsmash_handler_t) (start wanted_length audio_delay : Int)
    (hd : in_int32 (audio_delay + h.priv.av_gap))
    (hend : in_int32 (start + wanted_length))
    (hnot : ¬ (start < audio_delay + h.priv.av_gap
      ∧ start + wanted_length ≤ audio_delay + h.priv.av_gap)) :
    (delay_audio h start wanted_length audio_delay).1 = 1
    ∧ (delay_audio h start wanted_length audio_delay).2.1
        = to_int32 (start - (audio_delay + h.priv.av_gap))
    ∧ (in_int32 (start - (audio_delay + h.priv.av_gap)) →
        (delay_audio h start wanted_length audio_delay).2.1
          = start - (audio_delay + h.priv.av_gap))
    ∧ (delay_audio h start wanted_length audio_delay).2.2 = h
    ∧ (delay_audio h start wanted_length audio_delay).2.2.priv.adh.next_pcm_sample_number
        = h.priv.adh.next_pcm_sample_number
    ∧ (delay_audio h start wanted_length audio_delay).2.2.audio_pcm_sample_count
        = h.audio_pcm_sample_count := by
  have hc : ¬ (start < to_int32 (audio_delay + h.priv.av_gap)
      ∧ to_int32 (start + wanted_length) ≤ to_int32 (audio_delay + h.priv.av_gap)) := by
    rw [to_int32_of_in_int32 hd, to_int32_of_in_int32 hend]
    exact hnot
  rw [delay_audio_eq_read h start wanted_length audio_delay hc, to_int32_of_in_int32 hd]
  refine ⟨rfl, rfl, ?_, rfl, rfl, rfl⟩
  intro hs
  exact to_int32_of_in_int32 hs

theorem delay_audio_read_witness :
    (in_int32 (0 + (handler_with_gap 15 1000).priv.av_gap) ∧ in_int32 (20 + 10)
      ∧ ¬ (20 < 0 + (handler_with_gap 15 1000).priv.av_gap
        ∧ 20 + 10 ≤ 0 + (handler_with_gap 15 1000).priv.av_gap))
    ∧ (delay_audio (handler_with_gap 15 1000) 20 10 0).1 = 1
    ∧ (delay_audio (handler_with_gap 15 1000) 20 10 0).2.1 = 5
    ∧ (delay_audio (handler_with_gap 15 1000) 20 10 0).2.2 = handler_with_gap 15 1000 := by
  have hd : in_int32 (0 + (handler_with_gap 15 1000).priv.av_gap) := by decide
  have hend : in_int32 ((20 : Int) + 10) := by decide
  have hnot : ¬ (20 < 0 + (handler_with_gap 15 1000).priv.av_gap
      ∧ 20 + 10 ≤ 0 + (handler_with_gap 15 1000).priv.av_gap) := by decide
  have hw := delay_audio_read (handler_with_gap 15 1000) 20 10 0 hd hend hnot
  exact ⟨⟨hd, hend, hnot⟩, hw.1, (hw.2.2.1 (by decide)).trans (by decide), hw.2.2.2.1⟩

/-- C3: when neither `*start + wanted_length` nor `*start -= audio_delay` overflows
`int`, and `delay_audio` returns 1 with a negative adjusted start, the absolute value
of the adjusted start is at most `wanted_length`; the adjusted start is
`start - (audio_delay + av_gap)` whenever that sum of delays is an `int`. -/
theorem delay_audio_negative_start_bound (h : lsmash_handler_t)
    (start wanted_length audio_delay : Int)
    (hend : in_int32 (start + wanted_length))
    (hsub : in_int32 (start - to_int32 (audio_delay + h.priv.av_gap)))
    (hret : (delay_audio h start wanted_length audio_delay).1 = 1)
    (hneg : (delay_audio h start wanted_length audio_delay).2.1 < 0) :
    |(delay_audio h start wanted_length audio_delay).2.1| ≤ wanted_length
    ∧ (in_int32 (audio_delay + h.priv.av_gap) →
        (delay_audio h start wanted_length audio_delay).2.1
          = start - (audio_delay + h.priv.av_gap)) := by
  by_cases hc : start < to_int32 (audio_delay + h.priv.av_gap)
      ∧ to_int32 (start + wanted_length) ≤ to_int32 (audio_delay + h.priv.av_gap)
  · rw [delay_audio_eq_preroll h start wanted_length audio_delay hc] at hret
    simp at hret
  · rw [delay_audio_eq_read h start wanted_length audio_delay hc] at hneg ⊢
    simp only at hneg ⊢
    rw [to_int32_of_in_int32 hsub] at hneg ⊢
    rw [to_int32_of_in_int32 hend] at hc
    constructor
    · rw [abs_of_neg hneg]
      by_contra hgt
      apply hc
      constructor <;> omega
    · intro hd
      rw [to_int32_of_in_int32 hd]

theorem delay_audio_negative_start_bound_witness :
    (in_int32 (10 + 10) ∧ in_int32 (10 - to_int32 (0 + (handler_with_gap 15 1000).priv.av_gap))
      ∧ (delay_audio (handler_with_gap 15 1000) 10 10 0).1 = 1
      ∧ (delay_audio (handler_with_gap 15 1000) 10 10 0).2.1 < 0)
    ∧ |(delay_audio (handler_with_gap 15 1000) 10 10 0).2.1| ≤ 10 := by
  have hend : in_int32 ((10 : Int) + 10) := by decide
  have hsub : in_int32 (10 - to_int32 (0 + (handler_with_gap 15 1000).priv.av_gap)) := by
    decide
  have hret : (delay_audio (handler_with_gap 15 1000) 10 10 0).1 = 1 := by decide
  have hneg : (delay_audio (handler_with_gap 15 1000) 10 10 0).2.1 < 0 := by decide
  exact ⟨⟨hend, hsub, hret, hneg⟩,
    (delay_audio_negative_start_bound (handler_with_gap 15 1000) 10 10 0 hend hsub hret hneg).1⟩

/-! ## `get_start_time` -/

theorem get_start_time_loop_skip (tm : timeline_map) (m : Nat) :
    ∀ fuel n : Nat,
      (∀ j, n ≤ j → j < n + m →
        j ≤ tm.edit_count ∧ ∃ e, tm.get j = some e ∧ e.duration ≠ 0 ∧ e.start_time < 0) →
      get_start_time_loop tm (fuel + m) n = get_start_time_loop tm fuel (n + m) := by
  induction m with
  | zero => intro fuel n _; rfl
  | succ m ih =>
    intro fuel n hskip
    obtain ⟨hle, e, hget, hdur, hneg⟩ := hskip n (le_refl n) (by omega)
    have hstep : get_start_time_loop tm (fuel + m + 1) n
        = get_start_time_loop tm (fuel + m) (n + 1) := by
      simp only [get_start_time_loop, if_pos hle, hget, if_neg hdur,
        if_neg (not_le.mpr hneg)]
    have hrest := ih fuel (n + 1) (fun j h1 h2 => hskip j (by omega) (by omega))
    rw [show fuel + (m + 1) = fuel + m + 1 by omega, hstep, hrest]
    rw [show n + 1 + m = n + (m + 1) by omega]

theorem get_start_time_loop_zero_duration (tm : timeline_map) (m : Nat) :
    ∀ fuel n : Nat, n + m ≤ tm.edit_count →
      (∃ e, tm.get (n + m) = some e ∧ e.duration = 0) →
      (∀ j e, n ≤ j → j < n + m → tm.get j = some e → e.start_time ≤ 0) →
      get_start_time_loop tm (fuel + m + 1) n = 0 := by
  induction m with
  | zero =>
    intro fuel n hle hzero _
    obtain ⟨e, hget, hdur⟩ := hzero
    simp only [Nat.add_zero] at hle hget
    simp only [Nat.add_zero, get_start_time_loop, if_pos hle, hget, if_pos hdur]
  | succ m ih =>
    intro fuel n hle hzero hearlier
    have hn : n ≤ tm.edit_count := by omega
    have hrest : get_start_time_loop tm (fuel + m + 1) (n + 1) = 0 :=
      ih fuel (n + 1) (by omega) (by rw [show n + 1 + m = n + (m + 1) by omega]; exact hzero)
        (fun j e h1 h2 hj => hearlier j e (by omega) (by omega) hj)
    rw [show fuel + (m + 1) + 1 = (fuel + m + 1) + 1 by omega]
    cases hget : tm.get n with
    | none => simp only [get_start_time_loop, if_pos hn, hget]
    | some e =>
      have hst : e.start_time ≤ 0 := hearlier n e (le_refl n) (by omega) hget
      by_cases hdur : e.duration = 0
      · simp only [get_start_time_loop, if_pos hn, hget, if_pos hdur]
      · by_cases hge : e.start_time ≥ 0
        · simp only [get_start_time_loop, if_pos hn, hget, if_neg hdur, if_pos hge]
          omega
        · simp only [get_start_time_loop, if_pos hn, hget, if_neg hdur, if_neg hge]
          exact hrest

/-- C4, as the claim states it, fails: the edit list `edits_media_then_zero`
contains an edit of duration 0 (its second), and `get_start_time` returns the
`start_time` 100 of the first edit. -/
theorem get_start_time_zero_duration_counterexample :
    (timeline_map.of_list edits_media_then_zero).edit_count = 2
    ∧ (timeline_map.of_list edits_media_then_zero).get 1 = some ⟨10, 100, 65536⟩
    ∧ (timeline_map.of_list edits_media_then_zero).get 2 = some ⟨0, 0, 65536⟩
    ∧ get_start_time (timeline_map.of_list edits_media_then_zero) = 100 := by
  decide

/-- C4, amended: if edit number `k` of the list has duration 0 and no edit before it
has a positive `start_time`, `get_start_time` returns 0, whatever the durations of
the earlier edits and whatever the later edits are. -/
theorem get_start_time_zero_duration (tm : timeline_map) (k : Nat) (e : lsmash_edit_t)
    (hk1 : 1 ≤ k) (hk2 : k ≤ tm.edit_count)
    (hget : tm.get k = some e) (hdur : e.duration = 0)
    (hearlier : ∀ j e', 1 ≤ j → j < k → tm.get j = some e' → e'.start_time ≤ 0) :
    get_start_time tm = 0 := by
  have h := get_start_time_loop_zero_duration tm (k - 1) (tm.edit_count - (k - 1)) 1
    (by omega) ⟨e, by rw [show 1 + (k - 1) = k by omega]; exact hget, hdur⟩
    (fun j e' h1 h2 hj => hearlier j e' h1 (by omega) hj)
  rw [show tm.edit_count - (k - 1) + (k - 1) + 1 = tm.edit_count + 1 by omega] at h
  exact h

theorem get_start_time_zero_duration_witness :
    (1 ≤ 2 ∧ 2 ≤ (timeline_map.of_list edits_empty_then_zero).edit_count
      ∧ (timeline_map.of_list edits_empty_then_zero).get 2 = some ⟨0, 7, 65536⟩
      ∧ (⟨0, 7, 65536⟩ : lsmash_edit_t).duration = 0)
    ∧ get_start_time (timeline_map.of_list edits_empty_then_zero) = 0 := by
  refine ⟨by decide, ?_⟩
  refine get_start_time_zero_duration (timeline_map.of_list edits_empty_then_zero) 2
    ⟨0, 7, 65536⟩ (by decide) (by decide) (by decide) (by decide) ?_
  intro j e' h1 h2 hj
  have hj1 : j = 1 := by omega
  subst hj1
  have he : e' = ⟨5, -1, 65536⟩ := by
    have h5 : (timeline_map.of_list edits_empty_then_zero).get 1 = some ⟨5, -1, 65536⟩ := by
      decide
    rw [h5] at hj
    exact (Option.some.inj hj).symm
  subst he
  decide

/-- C5: when every edit of the list can be retrieved and none has duration 0,
`get_start_time` returns the `start_time` of the first edit whose `start_time` is
non-negative, and 0 when every edit has a negative `start_time` (in particular
for the empty list). -/
theorem get_start_time_first_non_negative (tm : timeline_map)
    (hall : ∀ n, 1 ≤ n → n ≤ tm.edit_count → ∃ e, tm.get n = some e ∧ e.duration ≠ 0) :
    (∀ k e, 1 ≤ k → k ≤ tm.edit_count → tm.get k = some e → 0 ≤ e.start_time →
        (∀ j e', 1 ≤ j → j < k → tm.get j = some e' → e'.start_time < 0) →
        get_start_time tm = e.start_time)
    ∧ ((∀ n e, 1 ≤ n → n ≤ tm.edit_count → tm.get n = some e → e.start_time < 0) →
        get_start_time tm = 0) := by
  constructor
  · intro k e hk1 hk2 hget hnonneg hearlier
    have hskip := get_start_time_loop_skip tm (k - 1) (tm.edit_count - (k - 1) + 1) 1
      (fun j h1 h2 => by
        have hjc : j ≤ tm.edit_count := by omega
        obtain ⟨e', hj, hd⟩ := hall j h1 hjc
        exact ⟨hjc, e', hj, hd, hearlier j e' h1 (by omega) hj⟩)
    obtain ⟨e', hget', hdur⟩ := hall k hk1 hk2
    rw [hget] at hget'
    have hee : e = e' := Option.some.inj hget'
    subst hee
    unfold get_start_time
    rw [show tm.edit_count + 1 = tm.edit_count - (k - 1) + 1 + (k - 1) by omega, hskip,
      show 1 + (k - 1) = k by omega]
    simp only [get_start_time_loop, if_pos hk2, hget, if_neg hdur]
    exact if_pos hnonneg
  · intro hneg
    have hskip := get_start_time_loop_skip tm tm.edit_count 1 1
      (fun j h1 h2 => by
        have hjc : j ≤ tm.edit_count := by omega
        obtain ⟨e', hj, hd⟩ := hall j h1 hjc
        exact ⟨hjc, e', hj, hd, hneg j e' h1 hjc hj⟩)
    unfold get_start_time
    rw [show tm.edit_count + 1 = 1 + tm.edit_count by omega, hskip]
    simp only [get_start_time_loop]
    exact if_neg (by omega)

theorem get_start_time_first_non_negative_witness :
    ((timeline_map.of_list edits_empty_then_media).edit_count = 3
      ∧ (timeline_map.of_list edits_empty_then_media).get 1 = some ⟨5, -1, 65536⟩
      ∧ (timeline_map.of_list edits_empty_then_media).get 2 = some ⟨10, 200, 65536⟩
      ∧ (timeline_map.of_list edits_empty_then_media).get 3 = some ⟨10, 300, 65536⟩)
    ∧ get_start_time (timeline_map.of_list edits_empty_then_media) = 200 := by
  have hall : ∀ n, 1 ≤ n → n ≤ (timeline_map.of_list edits_empty_then_media).edit_count →
      ∃ e, (timeline_map.of_list edits_empty_then_media).get n = some e ∧ e.duration ≠ 0 := by
    intro n h1 h2
    have h3 : n ≤ 3 := h2
    have hn : n = 1 ∨ n = 2 ∨ n = 3 := by omega
    rcases hn with rfl | rfl | rfl
    · exact ⟨⟨5, -1, 65536⟩, by decide, by decide⟩
    · exact ⟨⟨10, 200, 65536⟩, by decide, by decide⟩
    · exact ⟨⟨10, 300, 65536⟩, by decide, by decide⟩
  refine ⟨by decide, ?_⟩
  refine (get_start_time_first_non_negative (timeline_map.of_list edits_empty_then_media)
    hall).1 2 ⟨10, 200, 65536⟩ (by decide) (by decide) (by decide) (by decide) ?_
  intro j e' h1 h2 hj
  have hj1 : j = 1 := by omega
  subst hj1
  have h5 : (timeline_map.of_list edits_empty_then_media).get 1 = some ⟨5, -1, 65536⟩ := by
    decide
  rw [h5] at hj
  have he : e' = ⟨5, -1, 65536⟩ := (Option.some.inj hj).symm
  subst he
  decide

/-! ## `get_empty_duration` -/

theorem half_up_div (x m : Int) (hm : 0 < m) :
    (x + m / 2) / m = (2 * x + m) / (2 * m) := by
  have h1 : (x + m / 2) / m * m ≤ x + m / 2 := Int.ediv_mul_le _ hm.ne'
  have h2 : x + m / 2 < ((x + m / 2) / m + 1) * m := Int.lt_ediv_add_one_mul_self _ hm
  have h3 : 2 * (m / 2) ≤ m := by omega
  have h4 : m ≤ 2 * (m / 2) + 1 := by omega
  apply le_antisymm
  · apply Int.le_ediv_of_mul_le (by omega)
    nlinarith
  · have hlt : (2 * x + m) / (2 * m) < (x + m / 2) / m + 1 := by
      apply Int.ediv_lt_of_lt_mul (by omega)
      nlinarith
    omega

theorem half_up_div_eq_round (x m : Int) (hm : 0 < m) :
    (x + m / 2) / m = round ((x : ℚ) / (m : ℚ)) := by
  rw [round_eq]
  have hq : ((x : ℚ) / (m : ℚ) + 1 / 2)
      = (((2 * x + m : ℤ) : ℚ) / (((2 * m).toNat : ℕ) : ℚ)) := by
    have hmq : (m : ℚ) ≠ 0 := by exact_mod_cast hm.ne'
    have hcast : (((2 * m).toNat : ℕ) : ℚ) = 2 * (m : ℚ) := by
      have hz : (((2 * m).toNat : ℕ) : ℤ) = 2 * m := Int.toNat_of_nonneg (by omega)
      exact_mod_cast hz
    rw [hcast]
    push_cast
    field_simp
    ring
  rw [hq, Rat.floor_intCast_div_natCast, Int.toNat_of_nonneg (by omega)]
  exact half_up_div x m hm

theorem av_rescale_q_eq_round (a tb tc : Int) (ha : 0 ≤ a) (hb : 0 < tb) (hc : 0 < tc)
    (hfit : round ((a : ℚ) * (tc : ℚ) / (tb : ℚ)) ≤ 9223372036854775807) :
    av_rescale_q a ⟨1, tb⟩ ⟨1, tc⟩ = round ((a : ℚ) * (tc : ℚ) / (tb : ℚ)) := by
  have hround : (a * tc + tb / 2) / tb = round ((a : ℚ) * (tc : ℚ) / (tb : ℚ)) := by
    have h := half_up_div_eq_round (a * tc) tb hb
    push_cast at h
    exact h
  have hnonneg : 0 ≤ (a * tc + tb / 2) / tb := by
    apply Int.ediv_nonneg _ hb.le
    have h1 : 0 ≤ a * tc := mul_nonneg ha hc.le
    omega
  simp only [av_rescale_q, one_mul, if_neg (not_lt.mpr ha)]
  rw [← hround] at hfit ⊢
  exact to_int64_of_in_int64 ⟨by omega, hfit⟩

/-- C6: `get_empty_duration` depends on edit number 1 only.  For movie and media
timescales that are positive and fit the `int` fields of `AVRational`, if that edit
is an empty edit (`start_time = ISOM_EDIT_MODE_EMPTY`) of nonzero duration `D`, with
`D` and the rescaled value inside `int64_t`, the result is
`D * media_timescale / movie_timescale` rounded to the nearest integer, halves
upwards (away from zero); if the first edit is not empty, has duration 0 or cannot
be retrieved, the result is 0. -/
theorem get_empty_duration_first_edit (tm : timeline_map)
    (movie_timescale media_timescale : Int)
    (hmovie : 0 < movie_timescale) (hmovie_int : movie_timescale ≤ 2147483647)
    (hmedia : 0 < media_timescale) (hmedia_int : media_timescale ≤ 2147483647) :
    (∀ e, tm.get 1 = some e → e.start_time = ISOM_EDIT_MODE_EMPTY → 0 < e.duration →
        e.duration ≤ 9223372036854775807 →
        round ((e.duration : ℚ) * (media_timescale : ℚ) / (movie_timescale : ℚ))
          ≤ 9223372036854775807 →
        get_empty_duration tm movie_timescale media_timescale
          = round ((e.duration : ℚ) * (media_timescale : ℚ) / (movie_timescale : ℚ)))
    ∧ (∀ e, tm.get 1 = some e → e.start_time ≠ ISOM_EDIT_MODE_EMPTY →
        get_empty_duration tm movie_timescale media_timescale = 0)
    ∧ (∀ e, tm.get 1 = some e → e.duration = 0 →
        get_empty_duration tm movie_timescale media_timescale = 0)
    ∧ (tm.get 1 = none → get_empty_duration tm movie_timescale media_timescale = 0)
    ∧ (∀ tm' : timeline_map, tm'.get 1 = tm.get 1 →
        get_empty_duration tm' movie_timescale media_timescale
          = get_empty_duration tm movie_timescale media_timescale) := by
  refine ⟨?_, ?_, ?_, ?_, ?_⟩
  · intro e hget hempty hpos hdur hfit
    have hcond : e.duration ≠ 0 ∧ e.start_time = ISOM_EDIT_MODE_EMPTY := ⟨hpos.ne', hempty⟩
    have ha : to_int64 e.duration = e.duration := to_int64_of_in_int64 ⟨by omega, hdur⟩
    have hb : to_int32 movie_timescale = movie_timescale :=
      to_int32_of_in_int32 ⟨by omega, hmovie_int⟩
    have hc : to_int32 media_timescale = media_timescale :=
      to_int32_of_in_int32 ⟨by omega, hmedia_int⟩
    have hr := av_rescale_q_eq_round e.duration movie_timescale media_timescale hpos.le
      hmovie hmedia hfit
    have hnonneg :
        0 ≤ round ((e.duration : ℚ) * (media_timescale : ℚ) / (movie_timescale : ℚ)) := by
      rw [round_eq]
      apply Int.floor_nonneg.mpr
      have h1 : (0 : ℚ) < e.duration := by exact_mod_cast hpos
      have h2 : (0 : ℚ) < media_timescale := by exact_mod_cast hmedia
      have h3 : (0 : ℚ) < movie_timescale := by exact_mod_cast hmovie
      positivity
    simp only [get_empty_duration, hget, if_pos hcond, ha, hb, hc, hr]
    exact to_uint64_of_range hnonneg (by omega)
  · intro e hget hne
    simp only [get_empty_duration, hget]
    exact if_neg (fun hcond => hne hcond.2)
  · intro e hget hzero
    simp only [get_empty_duration, hget]
    exact if_neg (fun hcond => hcond.1 hzero)
  · intro hget
    simp only [get_empty_duration, hget]
  · intro tm' hsame
    simp only [get_empty_duration, hsame]

theorem get_empty_duration_first_edit_witness :
    ((0 : Int) < 2 ∧ (2 : Int) ≤ 2147483647 ∧ (0 : Int) < 1 ∧ (1 : Int) ≤ 2147483647)
    ∧ get_empty_duration (timeline_map.of_list edits_empty_three) 2 1 = 2 := by
  refine ⟨by decide, ?_⟩
  have hw := (get_empty_duration_first_edit (timeline_map.of_list edits_empty_three) 2 1
    (by decide) (by decide) (by decide) (by decide)).1 ⟨3, -1, 65536⟩ (by decide) (by decide)
    (by decide) (by decide)
  have hround : round (((⟨3, -1, 65536⟩ : lsmash_edit_t).duration : ℚ) * ((1 : Int) : ℚ)
      / ((2 : Int) : ℚ)) = 2 := by
    rw [round_eq]
    rw [Int.floor_eq_iff]
    norm_num
  rw [hround] at hw
  exact hw (by decide)

/-! ## Track binding -/

theorem scan_tracks_skip (d : demuxer) (type : Int) (number_of_tracks : Nat) (m : Nat) :
    ∀ fuel i : Nat,
      (∀ j, i ≤ j → j < i + m →
        j ≤ number_of_tracks ∧ d.get_track_ID j ≠ 0
        ∧ ∃ mp, d.get_media_parameters (d.get_track_ID j) = some mp ∧ mp.handler_type ≠ type) →
      scan_tracks d type number_of_tracks (fuel + m) i
        = scan_tracks d type number_of_tracks fuel (i + m) := by
  induction m with
  | zero => intro fuel i _; rfl
  | succ m ih =>
    intro fuel i hskip
    obtain ⟨hle, hid, mp, hmp, hne⟩ := hskip i (le_refl i) (by omega)
    have hstep : scan_tracks d type number_of_tracks (fuel + m + 1) i
        = scan_tracks d type number_of_tracks (fuel + m) (i + 1) := by
      simp only [scan_tracks, if_pos hle, if_neg hid, hmp, if_neg hne]
    have hrest := ih fuel (i + 1) (fun j h1 h2 => hskip j (by omega) (by omega))
    rw [show fuel + (m + 1) = fuel + m + 1 by omega, hstep, hrest]
    rw [show i + 1 + m = i + (m + 1) by omega]

theorem scan_tracks_found (d : demuxer) (type : Int) (number_of_tracks : Nat) (k : Nat)
    (mp : lsmash_media_parameters_t)
    (hk1 : 1 ≤ k) (hk2 : k ≤ number_of_tracks)
    (hid : d.get_track_ID k ≠ 0)
    (hmp : d.get_media_parameters (d.get_track_ID k) = some mp)
    (htype : mp.handler_type = type)
    (hbefore : ∀ j, 1 ≤ j → j < k → d.get_track_ID j ≠ 0
      ∧ ∃ mp', d.get_media_parameters (d.get_track_ID j) = some mp' ∧ mp'.handler_type ≠ type) :
    scan_tracks d type number_of_tracks (number_of_tracks + 1) 1
      = track_scan.found k (d.get_track_ID k) mp := by
  have hskip := scan_tracks_skip d type number_of_tracks (k - 1)
    (number_of_tracks - (k - 1) + 1) 1
    (fun j h1 h2 => ⟨by omega, hbefore j h1 (by omega)⟩)
  rw [show number_of_tracks + 1 = number_of_tracks - (k - 1) + 1 + (k - 1) by omega, hskip,
    show 1 + (k - 1) = k by omega]
  simp only [scan_tracks, if_pos hk2, if_neg hid, hmp, if_pos htype]

theorem scan_tracks_exhausted (d : demuxer) (type : Int) (number_of_tracks : Nat)
    (hall : ∀ j, 1 ≤ j → j ≤ number_of_tracks → d.get_track_ID j ≠ 0
      ∧ ∃ mp', d.get_media_parameters (d.get_track_ID j) = some mp' ∧ mp'.handler_type ≠ type) :
    scan_tracks d type number_of_tracks (number_of_tracks + 1) 1 = track_scan.exhausted := by
  have hskip := scan_tracks_skip d type number_of_tracks number_of_tracks 1 1
    (fun j h1 h2 => ⟨by omega, hall j h1 (by omega)⟩)
  rw [show number_of_tracks + 1 = 1 + number_of_tracks by omega, hskip]
  simp only [scan_tracks]
  exact if_neg (by omega)

theorem scan_tracks_failed (d : demuxer) (type : Int) (number_of_tracks : Nat) (k : Nat)
    (hk1 : 1 ≤ k) (hk2 : k ≤ number_of_tracks)
    (hfail : d.get_track_ID k = 0 ∨ d.get_media_parameters (d.get_track_ID k) = none)
    (hbefore : ∀ j, 1 ≤ j → j < k → d.get_track_ID j ≠ 0
      ∧ ∃ mp', d.get_media_parameters (d.get_track_ID j) = some mp' ∧ mp'.handler_type ≠ type) :
    scan_tracks d type number_of_tracks (number_of_tracks + 1) 1 = track_scan.failed := by
  have hskip := scan_tracks_skip d type number_of_tracks (k - 1)
    (number_of_tracks - (k - 1) + 1) 1
    (fun j h1 h2 => ⟨by omega, hbefore j h1 (by omega)⟩)
  rw [show number_of_tracks + 1 = number_of_tracks - (k - 1) + 1 + (k - 1) by omega, hskip,
    show 1 + (k - 1) = k by omega]
  by_cases hid : d.get_track_ID k = 0
  · simp only [scan_tracks, if_pos hk2, if_pos hid]
  · have hnone : d.get_media_parameters (d.get_track_ID k) = none := by
      rcases hfail with h0 | h0
      · exact absurd h0 hid
      · exact h0
    simp only [scan_tracks, if_pos hk2, if_neg hid, hnone]

theorem open_decoder_preserves (d : demuxer) (h : lsmash_handler_t) (type : Int)
    (track_ID : Nat) :
    (open_decoder d h type track_ID).2.priv.vih = h.priv.vih
    ∧ (open_decoder d h type track_ID).2.priv.aih = h.priv.aih
    ∧ (open_decoder d h type track_ID).2.priv.aoh = h.priv.aoh
    ∧ (open_decoder d h type track_ID).2.priv.vdh.track_ID = h.priv.vdh.track_ID
    ∧ (open_decoder d h type track_ID).2.priv.vdh.min_cts = h.priv.vdh.min_cts
    ∧ (open_decoder d h type track_ID).2.priv.adh.track_ID = h.priv.adh.track_ID := by
  unfold open_decoder
  simp only
  split_ifs <;> simp

theorem open_decoder_vih (d : demuxer) (h : lsmash_handler_t) (type : Int) (track_ID : Nat) :
    (open_decoder d h type track_ID).2.priv.vih = h.priv.vih :=
  (open_decoder_preserves d h type track_ID).1

theorem open_decoder_aih (d : demuxer) (h : lsmash_handler_t) (type : Int) (track_ID : Nat) :
    (open_decoder d h type track_ID).2.priv.aih = h.priv.aih :=
  (open_decoder_preserves d h type track_ID).2.1

theorem open_decoder_aoh (d : demuxer) (h : lsmash_handler_t) (type : Int) (track_ID : Nat) :
    (open_decoder d h type track_ID).2.priv.aoh = h.priv.aoh :=
  (open_decoder_preserves d h type track_ID).2.2.1

theorem open_decoder_vdh_track_ID (d : demuxer) (h : lsmash_handler_t) (type : Int)
    (track_ID : Nat) :
    (open_decoder d h type track_ID).2.priv.vdh.track_ID = h.priv.vdh.track_ID :=
  (open_decoder_preserves d h type track_ID).2.2.2.1

theorem open_decoder_vdh_min_cts (d : demuxer) (h : lsmash_handler_t) (type : Int)
    (track_ID : Nat) :
    (open_decoder d h type track_ID).2.priv.vdh.min_cts = h.priv.vdh.min_cts :=
  (open_decoder_preserves d h type track_ID).2.2.2.2.1

theorem open_decoder_adh_track_ID (d : demuxer) (h : lsmash_handler_t) (type : Int)
    (track_ID : Nat) :
    (open_decoder d h type track_ID).2.priv.adh.track_ID = h.priv.adh.track_ID :=
  (open_decoder_preserves d h type track_ID).2.2.2.2.2

/-- A successful video bind: the bound track, and the timing fields when sync is
requested. -/
theorem bind_track_video (d : demuxer) (h : lsmash_handler_t) (track_ID : Nat)
    (media_param : lsmash_media_parameters_t)
    (hret : (bind_track d h ISOM_MEDIA_HANDLER_TYPE_VIDEO_TRACK track_ID media_param).1 = 0) :
    (bind_track d h ISOM_MEDIA_HANDLER_TYPE_VIDEO_TRACK track_ID media_param).2.priv.vdh.track_ID
        = track_ID
    ∧ ∃ ctd_shift, d.get_composition_to_decode_shift track_ID = some ctd_shift
      ∧ (h.priv.av_sync ≠ 0 →
        (bind_track d h ISOM_MEDIA_HANDLER_TYPE_VIDEO_TRACK track_ID
            media_param).2.priv.vih.start_pts
          = to_int64 (to_uint64
            ((bind_track d h ISOM_MEDIA_HANDLER_TYPE_VIDEO_TRACK track_ID
                media_param).2.priv.vdh.min_cts
              + ctd_shift
              + get_empty_duration (d.explicit_timeline_map track_ID) h.priv.movie_timescale
                  (bind_track d h ISOM_MEDIA_HANDLER_TYPE_VIDEO_TRACK track_ID
                    media_param).2.priv.vih.media_timescale))
        ∧ (bind_track d h ISOM_MEDIA_HANDLER_TYPE_VIDEO_TRACK track_ID
              media_param).2.priv.vih.skip_duration
          = to_uint64 (to_int64
              (ctd_shift + get_start_time (d.explicit_timeline_map track_ID)))) := by
  by_cases h1 : d.construct_timeline track_ID ≠ 0
  · simp [bind_track, h1] at hret
  cases hctd : d.get_composition_to_decode_shift track_ID with
  | none => simp [bind_track, h1, hctd] at hret
  | some ctd =>
    by_cases h3 : d.get_summaries track_ID ≠ 0
    · simp [bind_track, h1, hctd, h3] at hret
    cases hmin : d.get_cts track_ID
        (match (d.setup_timestamp_info track_ID 25 1).2.2 with
          | some composition_to_decoding => composition_to_decoding
          | none => 1) with
    | none => simp [bind_track, h1, hctd, h3, hmin] at hret
    | some min_cts =>
      refine ⟨?_, ctd, rfl, ?_⟩
      · by_cases hs : h.priv.av_sync ≠ 0
        · simp only [bind_track, h1, hctd, h3, hmin, hs, if_true, if_false,
            open_decoder_vdh_track_ID, not_false_eq_true, ne_eq]
        · simp only [bind_track, h1, hctd, h3, hmin, hs, if_true, if_false,
            open_decoder_vdh_track_ID, not_false_eq_true, ne_eq]
      · intro hs
        simp only [bind_track, h1, hctd, h3, hmin, hs, if_true, if_false,
            open_decoder_vdh_min_cts, open_decoder_vih, not_false_eq_true, ne_eq, and_self]

/-- A successful audio bind: the bound track, and the timing fields when sync is
requested. -/
theorem bind_track_audio (d : demuxer) (h : lsmash_handler_t) (type : Int) (track_ID : Nat)
    (media_param : lsmash_media_parameters_t)
    (htype : type ≠ ISOM_MEDIA_HANDLER_TYPE_VIDEO_TRACK)
    (hret : (bind_track d h type track_ID media_param).1 = 0) :
    (bind_track d h type track_ID media_param).2.priv.adh.track_ID = track_ID
    ∧ ∃ ctd_shift, d.get_composition_to_decode_shift track_ID = some ctd_shift
      ∧ (h.priv.av_sync ≠ 0 →
        ∃ min_cts, d.get_cts track_ID 1 = some min_cts
        ∧ (bind_track d h type track_ID media_param).2.priv.aih.start_pts
          = to_int64 (to_uint64
            (min_cts + ctd_shift
              + get_empty_duration (d.explicit_timeline_map track_ID) h.priv.movie_timescale
                  (bind_track d h type track_ID media_param).2.priv.aih.media_timescale))
        ∧ (bind_track d h type track_ID media_param).2.priv.aoh.skip_decoded_samples
          = to_uint64 (to_int64
              (ctd_shift + get_start_time (d.explicit_timeline_map track_ID)))) := by
  by_cases h1 : d.construct_timeline track_ID ≠ 0
  · simp [bind_track, h1] at hret
  cases hctd : d.get_composition_to_decode_shift track_ID with
  | none => simp [bind_track, h1, hctd] at hret
  | some ctd =>
    by_cases h3 : d.get_summaries track_ID ≠ 0
    · simp [bind_track, h1, hctd, h3, htype] at hret
    by_cases hs : h.priv.av_sync ≠ 0
    · cases hmin : d.get_cts track_ID 1 with
      | none => simp [bind_track, h1, hctd, h3, hmin, hs, htype] at hret
      | some min_cts =>
        refine ⟨?_, ctd, rfl, fun _ => ⟨min_cts, rfl, ?_⟩⟩
        · simp only [bind_track, h1, hctd, h3, hmin, hs, htype, if_true, if_false,
            open_decoder_adh_track_ID, not_false_eq_true, ne_eq]
        · simp only [bind_track, h1, hctd, h3, hmin, hs, htype, if_true, if_false,
            open_decoder_aih, open_decoder_aoh, not_false_eq_true, ne_eq, and_self]
    · refine ⟨?_, ctd, rfl, fun hs' => absurd hs' hs⟩
      simp only [bind_track, h1, hctd, h3, hs, htype, if_true, if_false,
        open_decoder_adh_track_ID, not_false_eq_true, ne_eq]

/-- Without sync, binding leaves `start_pts` and `skip_duration` as they were,
whether it succeeds or not. -/
theorem bind_track_no_sync (d : demuxer) (h : lsmash_handler_t) (type : Int) (track_ID : Nat)
    (media_param : lsmash_media_parameters_t) (hs : h.priv.av_sync = 0) :
    (bind_track d h type track_ID media_param).2.priv.vih.start_pts = h.priv.vih.start_pts
    ∧ (bind_track d h type track_ID media_param).2.priv.vih.skip_duration
        = h.priv.vih.skip_duration
    ∧ (bind_track d h type track_ID media_param).2.priv.aih.start_pts
        = h.priv.aih.start_pts := by
  by_cases h1 : d.construct_timeline track_ID ≠ 0
  · simp [bind_track, h1]
  cases hctd : d.get_composition_to_decode_shift track_ID with
  | none => simp [bind_track, h1, hctd]
  | some ctd =>
    by_cases h3 : d.get_summaries track_ID ≠ 0
    · by_cases htype : type = ISOM_MEDIA_HANDLER_TYPE_VIDEO_TRACK
      · simp [bind_track, h1, hctd, h3, htype]
      · simp [bind_track, h1, hctd, h3, htype]
    by_cases htype : type = ISOM_MEDIA_HANDLER_TYPE_VIDEO_TRACK
    · cases hmin : d.get_cts track_ID
          (match (d.setup_timestamp_info track_ID 25 1).2.2 with
            | some composition_to_decoding => composition_to_decoding
            | none => 1) with
      | none => simp [bind_track, h1, hctd, h3, hmin, htype]
      | some min_cts =>
        simp only [bind_track, h1, hctd, h3, hmin, hs, htype, if_true, if_false,
          open_decoder_vih, open_decoder_aih, not_false_eq_true, ne_eq, and_self,
          not_true_eq_false]
    · simp only [bind_track, h1, hctd, h3, hs, htype, if_true, if_false,
        open_decoder_vih, open_decoder_aih, not_false_eq_true, ne_eq, and_self,
        not_true_eq_false]

theorem scan_tracks_found_inv (d : demuxer) (type : Int) (number_of_tracks : Nat) :
    ∀ (fuel i k track_ID : Nat) (mp : lsmash_media_parameters_t),
      scan_tracks d type number_of_tracks fuel i = track_scan.found k track_ID mp →
      i ≤ k ∧ k ≤ number_of_tracks ∧ d.get_track_ID k = track_ID ∧ track_ID ≠ 0
      ∧ d.get_media_parameters track_ID = some mp ∧ mp.handler_type = type := by
  intro fuel
  induction fuel with
  | zero =>
    intro i k track_ID mp hscan
    simp [scan_tracks] at hscan
  | succ fuel ih =>
    intro i k track_ID mp hscan
    by_cases hle : i ≤ number_of_tracks
    · by_cases hid : d.get_track_ID i = 0
      · simp [scan_tracks, hle, hid] at hscan
      · cases hmp : d.get_media_parameters (d.get_track_ID i) with
        | none => simp [scan_tracks, hle, hid, hmp] at hscan
        | some mp' =>
          by_cases htype : mp'.handler_type = type
          · simp only [scan_tracks, if_pos hle, if_neg hid, hmp, if_pos htype] at hscan
            injection hscan with h1 h2 h3
            subst h1
            subst h2
            subst h3
            exact ⟨le_refl i, hle, rfl, hid, hmp, htype⟩
          · simp only [scan_tracks, if_pos hle, if_neg hid, hmp, if_neg htype] at hscan
            obtain ⟨h1, h2⟩ := ih (i + 1) k track_ID mp hscan
            exact ⟨by omega, h2⟩
    · simp [scan_tracks, hle] at hscan

theorem open_decoder_vdh_order_converter (d : demuxer) (h : lsmash_handler_t) (type : Int)
    (track_ID : Nat) :
    (open_decoder d h type track_ID).2.priv.vdh.order_converter
      = h.priv.vdh.order_converter := by
  unfold open_decoder
  simp only
  split_ifs <;> simp

theorem min_cts_sample_number_eq (order_converter : Option Nat) :
    (match order_converter with
      | some composition_to_decoding => composition_to_decoding
      | none => 1) = min_cts_sample_number order_converter := by
  cases order_converter <;> rfl

/-- A successful video bind with sync requested: where every value that enters
`start_pts` and `skip_duration` comes from. -/
theorem bind_track_video_timing (d : demuxer) (h : lsmash_handler_t) (track_ID : Nat)
    (media_param : lsmash_media_parameters_t) (hs : h.priv.av_sync ≠ 0)
    (hret : (bind_track d h ISOM_MEDIA_HANDLER_TYPE_VIDEO_TRACK track_ID media_param).1 = 0) :
    (bind_track d h ISOM_MEDIA_HANDLER_TYPE_VIDEO_TRACK track_ID media_param).2.priv.vdh.track_ID
        = track_ID
    ∧ (bind_track d h ISOM_MEDIA_HANDLER_TYPE_VIDEO_TRACK track_ID
          media_param).2.priv.vih.media_timescale = media_param.timescale
    ∧ (bind_track d h ISOM_MEDIA_HANDLER_TYPE_VIDEO_TRACK track_ID
          media_param).2.priv.vdh.order_converter = (d.setup_timestamp_info track_ID 25 1).2.2
    ∧ ∃ ctd_shift min_cts,
        d.get_composition_to_decode_shift track_ID = some ctd_shift
        ∧ d.get_cts track_ID
            (min_cts_sample_number (d.setup_timestamp_info track_ID 25 1).2.2) = some min_cts
        ∧ (bind_track d h ISOM_MEDIA_HANDLER_TYPE_VIDEO_TRACK track_ID
              media_param).2.priv.vdh.min_cts = min_cts
        ∧ (bind_track d h ISOM_MEDIA_HANDLER_TYPE_VIDEO_TRACK track_ID
              media_param).2.priv.vih.start_pts
            = to_int64 (to_uint64 (min_cts + ctd_shift
                + get_empty_duration (d.explicit_timeline_map track_ID)
                    h.priv.movie_timescale media_param.timescale))
        ∧ (bind_track d h ISOM_MEDIA_HANDLER_TYPE_VIDEO_TRACK track_ID
              media_param).2.priv.vih.skip_duration
            = to_uint64 (to_int64
                (ctd_shift + get_start_time (d.explicit_timeline_map track_ID))) := by
  by_cases h1 : d.construct_timeline track_ID ≠ 0
  · simp [bind_track, h1] at hret
  cases hctd : d.get_composition_to_decode_shift track_ID with
  | none => simp [bind_track, h1, hctd] at hret
  | some ctd =>
    by_cases h3 : d.get_summaries track_ID ≠ 0
    · simp [bind_track, h1, hctd, h3] at hret
    cases hmin : d.get_cts track_ID
        (match (d.setup_timestamp_info track_ID 25 1).2.2 with
          | some composition_to_decoding => composition_to_decoding
          | none => 1) with
    | none => simp [bind_track, h1, hctd, h3, hmin] at hret
    | some min_cts =>
      have hmin' : d.get_cts track_ID
          (min_cts_sample_number (d.setup_timestamp_info track_ID 25 1).2.2)
            = some min_cts := by
        rw [← min_cts_sample_number_eq]
        exact hmin
      refine ⟨?_, ?_, ?_, ctd, min_cts, rfl, hmin', ?_, ?_, ?_⟩ <;>
        simp only [bind_track, h1, hctd, h3, hmin, hs, if_true, if_false,
          open_decoder_vdh_track_ID, open_decoder_vdh_min_cts, open_decoder_vih,
          open_decoder_vdh_order_converter, not_false_eq_true, ne_eq]

/-- A successful audio bind with sync requested: where every value that enters
`start_pts` and `skip_decoded_samples` comes from. -/
theorem bind_track_audio_timing (d : demuxer) (h : lsmash_handler_t) (type : Int)
    (track_ID : Nat) (media_param : lsmash_media_parameters_t)
    (htype : type ≠ ISOM_MEDIA_HANDLER_TYPE_VIDEO_TRACK) (hs : h.priv.av_sync ≠ 0)
    (hret : (bind_track d h type track_ID media_param).1 = 0) :
    (bind_track d h type track_ID media_param).2.priv.adh.track_ID = track_ID
    ∧ (bind_track d h type track_ID media_param).2.priv.aih.media_timescale
        = media_param.timescale
    ∧ ∃ ctd_shift min_cts,
        d.get_composition_to_decode_shift track_ID = some ctd_shift
        ∧ d.get_cts track_ID 1 = some min_cts
        ∧ (bind_track d h type track_ID media_param).2.priv.aih.start_pts
            = to_int64 (to_uint64 (min_cts + ctd_shift
                + get_empty_duration (d.explicit_timeline_map track_ID)
                    h.priv.movie_timescale media_param.timescale))
        ∧ (bind_track d h type track_ID media_param).2.priv.aoh.skip_decoded_samples
            = to_uint64 (to_int64
                (ctd_shift + get_start_time (d.explicit_timeline_map track_ID))) := by
  by_cases h1 : d.construct_timeline track_ID ≠ 0
  · simp [bind_track, h1] at hret
  cases hctd : d.get_composition_to_decode_shift track_ID with
  | none => simp [bind_track, h1, hctd] at hret
  | some ctd =>
    by_cases h3 : d.get_summaries track_ID ≠ 0
    · simp [bind_track, h1, hctd, h3, htype] at hret
    cases hmin : d.get_cts track_ID 1 with
    | none => simp [bind_track, h1, hctd, h3, hmin, hs, htype] at hret
    | some min_cts =>
      refine ⟨?_, ?_, ctd, min_cts, rfl, rfl, ?_, ?_⟩ <;>
        simp only [bind_track, h1, hctd, h3, hmin, hs, htype, if_true, if_false,
          open_decoder_adh_track_ID, open_decoder_aih, open_decoder_aoh,
          not_false_eq_true, ne_eq]

/-- C9: when sync is requested, a successful `get_first_track_of_type` has bound the
track the loop stopped at and leaves, for the video type,
`vih.start_pts = min_cts + ctd_shift + get_empty_duration` and
`vih.skip_duration = ctd_shift + get_start_time` of that track, and for the audio
type `aih.start_pts = min_cts + ctd_shift + get_empty_duration`.  Here `ctd_shift` is
the track's composition to decode shift, `min_cts` the composition timestamp the
demuxer gives for the sample `min_cts_sample_number` of the video track (through the
reordering table) and for sample 1 of the audio track, and `get_empty_duration` is
taken with the movie timescale and the timescale of the track's media parameters.
The sums are in the C types of the fields, hence the plain sums whenever these are
inside `int64_t`.  When sync is not requested the call leaves `start_pts` and
`skip_duration` untouched, so after `open_file` they are 0 for every source. -/
theorem get_first_track_of_type_timing (d : demuxer) (h : lsmash_handler_t) (type : Int) :
    (h.priv.av_sync ≠ 0 → (get_first_track_of_type d h type).1 = 0 →
      (type = ISOM_MEDIA_HANDLER_TYPE_VIDEO_TRACK →
        ∃ (k : Nat) (mp : lsmash_media_parameters_t) (ctd_shift min_cts : Int),
          scan_tracks d type h.priv.number_of_tracks (h.priv.number_of_tracks + 1) 1
            = track_scan.found k (get_first_track_of_type d h type).2.priv.vdh.track_ID mp
          ∧ d.get_track_ID k = (get_first_track_of_type d h type).2.priv.vdh.track_ID
          ∧ d.get_media_parameters (get_first_track_of_type d h type).2.priv.vdh.track_ID
              = some mp
          ∧ (get_first_track_of_type d h type).2.priv.vih.media_timescale = mp.timescale
          ∧ d.get_composition_to_decode_shift
              (get_first_track_of_type d h type).2.priv.vdh.track_ID = some ctd_shift
          ∧ (get_first_track_of_type d h type).2.priv.vdh.order_converter
              = (d.setup_timestamp_info
                  (get_first_track_of_type d h type).2.priv.vdh.track_ID 25 1).2.2
          ∧ d.get_cts (get_first_track_of_type d h type).2.priv.vdh.track_ID
              (min_cts_sample_number
                (get_first_track_of_type d h type).2.priv.vdh.order_converter) = some min_cts
          ∧ (get_first_track_of_type d h type).2.priv.vdh.min_cts = min_cts
          ∧ (get_first_track_of_type d h type).2.priv.vih.start_pts
            = to_int64 (to_uint64
                (min_cts + ctd_shift
                  + get_empty_duration
                      (d.explicit_timeline_map
                        (get_first_track_of_type d h type).2.priv.vdh.track_ID)
                      h.priv.movie_timescale mp.timescale))
          ∧ (get_first_track_of_type d h type).2.priv.vih.skip_duration
            = to_uint64 (to_int64
                (ctd_shift + get_start_time
                  (d.explicit_timeline_map
                    (get_first_track_of_type d h type).2.priv.vdh.track_ID)))
          ∧ (in_int64 (min_cts + ctd_shift
                  + get_empty_duration
                      (d.explicit_timeline_map
                        (get_first_track_of_type d h type).2.priv.vdh.track_ID)
                      h.priv.movie_timescale mp.timescale) →
              (get_first_track_of_type d h type).2.priv.vih.start_pts
                = min_cts + ctd_shift
                  + get_empty_duration
                      (d.explicit_timeline_map
                        (get_first_track_of_type d h type).2.priv.vdh.track_ID)
                      h.priv.movie_timescale mp.timescale)
          ∧ (0 ≤ ctd_shift + get_start_time
                  (d.explicit_timeline_map
                    (get_first_track_of_type d h type).2.priv.vdh.track_ID) →
              in_int64 (ctd_shift + get_start_time
                  (d.explicit_timeline_map
                    (get_first_track_of_type d h type).2.priv.vdh.track_ID)) →
              (get_first_track_of_type d h type).2.priv.vih.skip_duration
                = ctd_shift + get_start_time
                  (d.explicit_timeline_map
                    (get_first_track_of_type d h type).2.priv.vdh.track_ID)))
      ∧ (type ≠ ISOM_MEDIA_HANDLER_TYPE_VIDEO_TRACK →
        ∃ (k : Nat) (mp : lsmash_media_parameters_t) (ctd_shift min_cts : Int),
          scan_tracks d type h.priv.number_of_tracks (h.priv.number_of_tracks + 1) 1
            = track_scan.found k (get_first_track_of_type d h type).2.priv.adh.track_ID mp
          ∧ d.get_track_ID k = (get_first_track_of_type d h type).2.priv.adh.track_ID
          ∧ d.get_media_parameters (get_first_track_of_type d h type).2.priv.adh.track_ID
              = some mp
          ∧ (get_first_track_of_type d h type).2.priv.aih.media_timescale = mp.timescale
          ∧ d.get_composition_to_decode_shift
              (get_first_track_of_type d h type).2.priv.adh.track_ID = some ctd_shift
          ∧ d.get_cts (get_first_track_of_type d h type).2.priv.adh.track_ID 1 = some min_cts
          ∧ (get_first_track_of_type d h type).2.priv.aih.start_pts
            = to_int64 (to_uint64
                (min_cts + ctd_shift
                  + get_empty_duration
                      (d.explicit_timeline_map
                        (get_first_track_of_type d h type).2.priv.adh.track_ID)
                      h.priv.movie_timescale mp.timescale))
          ∧ (get_first_track_of_type d h type).2.priv.aoh.skip_decoded_samples
            = to_uint64 (to_int64
                (ctd_shift + get_start_time
                  (d.explicit_timeline_map
                    (get_first_track_of_type d h type).2.priv.adh.track_ID)))
          ∧ (in_int64 (min_cts + ctd_shift
                  + get_empty_duration
                      (d.explicit_timeline_map
                        (get_first_track_of_type d h type).2.priv.adh.track_ID)
                      h.priv.movie_timescale mp.timescale) →
              (get_first_track_of_type d h type).2.priv.aih.start_pts
                = min_cts + ctd_shift
                  + get_empty_duration
                      (d.explicit_timeline_map
                        (get_first_track_of_type d h type).2.priv.adh.track_ID)
                      h.priv.movie_timescale mp.timescale)))
    ∧ (h.priv.av_sync = 0 →
        (get_first_track_of_type d h type).2.priv.vih.start_pts = h.priv.vih.start_pts
        ∧ (get_first_track_of_type d h type).2.priv.vih.skip_duration
            = h.priv.vih.skip_duration
        ∧ (get_first_track_of_type d h type).2.priv.aih.start_pts = h.priv.aih.start_pts)
    ∧ (∀ (opt : reader_option_t) (hp : libavsmash_handler_t),
        open_file d opt = some hp → opt.av_sync = 0 → h.priv = hp →
        (get_first_track_of_type d h type).2.priv.vih.start_pts = 0
        ∧ (get_first_track_of_type d h type).2.priv.vih.skip_duration = 0
        ∧ (get_first_track_of_type d h type).2.priv.aih.start_pts = 0) := by
  have hnosync : h.priv.av_sync = 0 →
      (get_first_track_of_type d h type).2.priv.vih.start_pts = h.priv.vih.start_pts
      ∧ (get_first_track_of_type d h type).2.priv.vih.skip_duration
          = h.priv.vih.skip_duration
      ∧ (get_first_track_of_type d h type).2.priv.aih.start_pts = h.priv.aih.start_pts := by
    intro hs
    unfold get_first_track_of_type
    cases scan_tracks d type h.priv.number_of_tracks (h.priv.number_of_tracks + 1) 1 with
    | failed => exact ⟨rfl, rfl, rfl⟩
    | exhausted => exact ⟨rfl, rfl, rfl⟩
    | found i track_ID media_param => exact bind_track_no_sync d h type track_ID media_param hs
  refine ⟨?_, hnosync, ?_⟩
  · intro hs hret
    unfold get_first_track_of_type at hret ⊢
    cases hscan : scan_tracks d type h.priv.number_of_tracks (h.priv.number_of_tracks + 1) 1 with
    | failed => rw [hscan] at hret; simp at hret
    | exhausted => rw [hscan] at hret; simp at hret
    | found i track_ID media_param =>
      rw [hscan] at hret
      simp only at hret ⊢
      obtain ⟨_, _, hidx, _, hparam, _⟩ := scan_tracks_found_inv d type
        h.priv.number_of_tracks (h.priv.number_of_tracks + 1) 1 i track_ID media_param hscan
      constructor
      · intro htype
        subst htype
        obtain ⟨hid, hts, horder, ctd_shift, min_cts, hctd, hmin, hcts, hstart, hskip⟩ :=
          bind_track_video_timing d h track_ID media_param hs hret
        rw [hid, horder]
        refine ⟨i, media_param, ctd_shift, min_cts, rfl, hidx, hparam, hts, hctd, rfl, hmin,
          hcts, hstart, hskip, ?_, ?_⟩
        · intro hfit
          rw [hstart]
          have hfit' := hfit
          unfold in_int64 at hfit'
          unfold to_int64 to_uint64
          omega
        · intro hnonneg hfit
          rw [hskip]
          have hfit' := hfit
          unfold in_int64 at hfit'
          unfold to_int64 to_uint64
          omega
      · intro htype
        obtain ⟨hid, hts, ctd_shift, min_cts, hctd, hmin, hstart, hskip⟩ :=
          bind_track_audio_timing d h type track_ID media_param htype hs hret
        rw [hid]
        refine ⟨i, media_param, ctd_shift, min_cts, rfl, hidx, hparam, hts, hctd, hmin,
          hstart, hskip, ?_⟩
        intro hfit
        rw [hstart]
        have hfit' := hfit
        unfold in_int64 at hfit'
        unfold to_int64 to_uint64
        omega
  · intro opt hp hopen hopt hpriv
    have hzero : hp.av_sync = 0 ∧ hp.vih.start_pts = 0 ∧ hp.vih.skip_duration = 0
        ∧ hp.aih.start_pts = 0 := by
      unfold open_file at hopen
      by_cases hok : d.open_ok = true
      · rw [if_pos hok] at hopen
        have hhp := Option.some.inj hopen
        subst hhp
        exact ⟨hopt, rfl, rfl, rfl⟩
      · rw [if_neg hok] at hopen
        exact absurd hopen (by simp)
    rw [← hpriv] at hzero
    obtain ⟨h1, h2, h3⟩ := hnosync hzero.1
    rw [h1, h2, h3]
    exact hzero.2

theorem get_first_track_of_type_timing_witness :
    (handler_three_tracks_sync.priv.av_sync ≠ 0
      ∧ (get_first_track_of_type demuxer_reordered handler_three_tracks_sync
          ISOM_MEDIA_HANDLER_TYPE_VIDEO_TRACK).1 = 0)
    ∧ (get_first_track_of_type demuxer_reordered handler_three_tracks_sync
          ISOM_MEDIA_HANDLER_TYPE_VIDEO_TRACK).2.priv.vdh.track_ID = 20
    ∧ demuxer_reordered.get_cts 20 1 = some 10
    ∧ demuxer_reordered.get_cts 20 2 = some 501
    ∧ (get_first_track_of_type demuxer_reordered handler_three_tracks_sync
          ISOM_MEDIA_HANDLER_TYPE_VIDEO_TRACK).2.priv.vdh.min_cts = 501
    ∧ (get_first_track_of_type demuxer_reordered handler_three_tracks_sync
          ISOM_MEDIA_HANDLER_TYPE_VIDEO_TRACK).2.priv.vih.start_pts = 501 + 1001 + 30000
    ∧ (get_first_track_of_type demuxer_reordered handler_three_tracks_sync
          ISOM_MEDIA_HANDLER_TYPE_VIDEO_TRACK).2.priv.vih.skip_duration = 1001 + 2002
    ∧ (open_file demuxer_three_tracks ⟨1, 0⟩ = some handler_three_tracks_no_sync.priv
      ∧ (get_first_track_of_type demuxer_three_tracks handler_three_tracks_no_sync
          ISOM_MEDIA_HANDLER_TYPE_VIDEO_TRACK).1 = 0)
    ∧ (get_first_track_of_type demuxer_three_tracks handler_three_tracks_no_sync
          ISOM_MEDIA_HANDLER_TYPE_VIDEO_TRACK).2.priv.vih.start_pts = 0
    ∧ (get_first_track_of_type demuxer_three_tracks handler_three_tracks_no_sync
          ISOM_MEDIA_HANDLER_TYPE_VIDEO_TRACK).2.priv.vih.skip_duration = 0 := by
  have hs : handler_three_tracks_sync.priv.av_sync ≠ 0 := by decide
  have hret : (get_first_track_of_type demuxer_reordered handler_three_tracks_sync
      ISOM_MEDIA_HANDLER_TYPE_VIDEO_TRACK).1 = 0 := by decide
  have hid : (get_first_track_of_type demuxer_reordered handler_three_tracks_sync
      ISOM_MEDIA_HANDLER_TYPE_VIDEO_TRACK).2.priv.vdh.track_ID = 20 := by decide
  obtain ⟨k, mp, ctd_shift, min_cts, _, _, hparam, _, hctd, horder, hmin, hcts, _, _, hstart,
      hskip⟩ :=
    ((get_first_track_of_type_timing demuxer_reordered handler_three_tracks_sync
      ISOM_MEDIA_HANDLER_TYPE_VIDEO_TRACK).1 hs hret).1 rfl
  rw [hid] at hparam hctd horder hstart hskip
  rw [horder, hid] at hmin
  have hmp : mp = ⟨ISOM_MEDIA_HANDLER_TYPE_VIDEO_TRACK, 30000⟩ := by
    have h20 : demuxer_reordered.get_media_parameters 20
        = some ⟨ISOM_MEDIA_HANDLER_TYPE_VIDEO_TRACK, 30000⟩ := by decide
    rw [h20] at hparam
    exact (Option.some.inj hparam).symm
  have hc : ctd_shift = 1001 := by
    have h20 : demuxer_reordered.get_composition_to_decode_shift 20 = some 1001 := by decide
    rw [h20] at hctd
    exact (Option.some.inj hctd).symm
  have hm : min_cts = 501 := by
    have h20 : demuxer_reordered.get_cts 20
        (min_cts_sample_number (demuxer_reordered.setup_timestamp_info 20 25 1).2.2)
          = some 501 := by decide
    rw [h20] at hmin
    exact (Option.some.inj hmin).symm
  subst hmp
  subst hc
  subst hm
  have hopen : open_file demuxer_three_tracks ⟨1, 0⟩
      = some handler_three_tracks_no_sync.priv := by decide
  have hzero := (get_first_track_of_type_timing demuxer_three_tracks
    handler_three_tracks_no_sync ISOM_MEDIA_HANDLER_TYPE_VIDEO_TRACK).2.2 ⟨1, 0⟩
    handler_three_tracks_no_sync.priv hopen rfl rfl
  refine ⟨⟨hs, hret⟩, hid, by decide, by decide, hcts, ?_, ?_, ⟨hopen, by decide⟩,
    hzero.1, hzero.2.1⟩
  · rw [hstart (by decide)]
    decide
  · rw [hskip (by decide) (by decide)]
    decide

/-- C10: the track loop of `get_first_track_of_type` stops at the lowest 1-origin
index whose handler type is the requested one, and a successful bind has bound
that track; when every track has another handler type the function returns -1,
and so it does when the track identifier or the media parameters of a track
reached by the loop cannot be retrieved. -/
theorem get_first_track_of_type_selection (d : demuxer) (h : lsmash_handler_t) (type : Int) :
    (∀ k mp, 1 ≤ k → k ≤ h.priv.number_of_tracks →
        d.get_track_ID k ≠ 0 → d.get_media_parameters (d.get_track_ID k) = some mp →
        mp.handler_type = type →
        (∀ j, 1 ≤ j → j < k → d.get_track_ID j ≠ 0
          ∧ ∃ mp', d.get_media_parameters (d.get_track_ID j) = some mp'
            ∧ mp'.handler_type ≠ type) →
        scan_tracks d type h.priv.number_of_tracks (h.priv.number_of_tracks + 1) 1
          = track_scan.found k (d.get_track_ID k) mp
        ∧ ((get_first_track_of_type d h type).1 = 0 →
            (type = ISOM_MEDIA_HANDLER_TYPE_VIDEO_TRACK →
              (get_first_track_of_type d h type).2.priv.vdh.track_ID = d.get_track_ID k)
            ∧ (type ≠ ISOM_MEDIA_HANDLER_TYPE_VIDEO_TRACK →
              (get_first_track_of_type d h type).2.priv.adh.track_ID = d.get_track_ID k)))
    ∧ ((∀ j, 1 ≤ j → j ≤ h.priv.number_of_tracks → d.get_track_ID j ≠ 0
          ∧ ∃ mp', d.get_media_parameters (d.get_track_ID j) = some mp'
            ∧ mp'.handler_type ≠ type) →
        (get_first_track_of_type d h type).1 = -1)
    ∧ (∀ k, 1 ≤ k → k ≤ h.priv.number_of_tracks →
        (d.get_track_ID k = 0 ∨ d.get_media_parameters (d.get_track_ID k) = none) →
        (∀ j, 1 ≤ j → j < k → d.get_track_ID j ≠ 0
          ∧ ∃ mp', d.get_media_parameters (d.get_track_ID j) = some mp'
            ∧ mp'.handler_type ≠ type) →
        (get_first_track_of_type d h type).1 = -1) := by
  refine ⟨?_, ?_, ?_⟩
  · intro k mp hk1 hk2 hid hmp htype hbefore
    have hscan := scan_tracks_found d type h.priv.number_of_tracks k mp hk1 hk2 hid hmp htype
      hbefore
    refine ⟨hscan, ?_⟩
    intro hret
    unfold get_first_track_of_type at hret ⊢
    rw [hscan] at hret ⊢
    simp only at hret ⊢
    constructor
    · intro hvideo
      subst hvideo
      exact (bind_track_video d h (d.get_track_ID k) mp hret).1
    · intro haudio
      exact (bind_track_audio d h type (d.get_track_ID k) mp haudio hret).1
  · intro hall
    unfold get_first_track_of_type
    rw [scan_tracks_exhausted d type h.priv.number_of_tracks hall]
  · intro k hk1 hk2 hfail hbefore
    unfold get_first_track_of_type
    rw [scan_tracks_failed d type h.priv.number_of_tracks k hk1 hk2 hfail hbefore]

theorem get_first_track_of_type_selection_witness :
    (1 ≤ 2 ∧ 2 ≤ handler_three_tracks_sync.priv.number_of_tracks
      ∧ demuxer_three_tracks.get_track_ID 2 ≠ 0
      ∧ demuxer_three_tracks.get_media_parameters (demuxer_three_tracks.get_track_ID 2)
          = some ⟨ISOM_MEDIA_HANDLER_TYPE_VIDEO_TRACK, 30000⟩
      ∧ (get_first_track_of_type demuxer_three_tracks handler_three_tracks_sync
          ISOM_MEDIA_HANDLER_TYPE_VIDEO_TRACK).1 = 0)
    ∧ scan_tracks demuxer_three_tracks ISOM_MEDIA_HANDLER_TYPE_VIDEO_TRACK 3 4 1
        = track_scan.found 2 20 ⟨ISOM_MEDIA_HANDLER_TYPE_VIDEO_TRACK, 30000⟩
    ∧ (get_first_track_of_type demuxer_three_tracks handler_three_tracks_sync
          ISOM_MEDIA_HANDLER_TYPE_VIDEO_TRACK).2.priv.vdh.track_ID = 20
    ∧ (get_first_track_of_type demuxer_no_audio handler_no_audio_sync
          ISOM_MEDIA_HANDLER_TYPE_AUDIO_TRACK).1 = -1
    ∧ (demuxer_no_audio.get_track_ID 3 = 0
      ∧ (get_first_track_of_type demuxer_no_audio handler_three_tracks_sync
          ISOM_MEDIA_HANDLER_TYPE_AUDIO_TRACK).1 = -1) := by
  have hret : (get_first_track_of_type demuxer_three_tracks handler_three_tracks_sync
      ISOM_MEDIA_HANDLER_TYPE_VIDEO_TRACK).1 = 0 := by decide
  have hw := (get_first_track_of_type_selection demuxer_three_tracks handler_three_tracks_sync
    ISOM_MEDIA_HANDLER_TYPE_VIDEO_TRACK).1 2 ⟨ISOM_MEDIA_HANDLER_TYPE_VIDEO_TRACK, 30000⟩
    (by decide) (by decide) (by decide) (by decide) rfl
    (by
      intro j h1 h2
      have hj : j = 1 := by omega
      subst hj
      exact ⟨by decide, ⟨ISOM_MEDIA_HANDLER_TYPE_AUDIO_TRACK, 48000⟩, by decide, by decide⟩)
  have hvideo : ∀ j, 1 ≤ j → j < 3 → demuxer_no_audio.get_track_ID j ≠ 0
      ∧ ∃ mp', demuxer_no_audio.get_media_parameters (demuxer_no_audio.get_track_ID j)
          = some mp' ∧ mp'.handler_type ≠ ISOM_MEDIA_HANDLER_TYPE_AUDIO_TRACK := by
    intro j h1 h2
    have hj : j = 1 ∨ j = 2 := by omega
    rcases hj with rfl | rfl
    · exact ⟨by decide, ⟨ISOM_MEDIA_HANDLER_TYPE_VIDEO_TRACK, 30000⟩, by decide, by decide⟩
    · exact ⟨by decide, ⟨ISOM_MEDIA_HANDLER_TYPE_VIDEO_TRACK, 25⟩, by decide, by decide⟩
  have hmissing := (get_first_track_of_type_selection demuxer_no_audio handler_no_audio_sync
    ISOM_MEDIA_HANDLER_TYPE_AUDIO_TRACK).2.1
    (fun j h1 h2 => hvideo j h1 (Nat.lt_succ_of_le h2))
  have hlookup := (get_first_track_of_type_selection demuxer_no_audio
    handler_three_tracks_sync ISOM_MEDIA_HANDLER_TYPE_AUDIO_TRACK).2.2 3
    (by decide) (by decide) (Or.inl (by decide)) hvideo
  exact ⟨⟨by decide, by decide, by decide, by decide, hret⟩, hw.1, (hw.2 hret).1 rfl,
    hmissing, by decide, hlookup⟩

/-! ## `prepare_audio_decoding` -/

/-- What a successful `prepare_audio_decoding` on a bound audio track leaves behind,
in the C types of the fields. -/
theorem prepare_audio_decoding_success (p : audio_preparation) (h : lsmash_handler_t)
    (hctx : h.priv.adh.ctx = true) (hret : (prepare_audio_decoding p h).1 = 0) :
    (prepare_audio_decoding p h).2.priv.aoh.output_sample_rate
        = (p.au_setup_audio_rendering p.prefer_sample_rate).2
    ∧ (h.priv.av_sync ≠ 0 ∧ h.priv.vdh.track_ID ≠ 0 →
        (prepare_audio_decoding p h).2.priv.av_gap
          = to_int64
            (av_rescale_q h.priv.aih.start_pts ⟨1, to_int32 h.priv.aih.media_timescale⟩
                ⟨1, (p.au_setup_audio_rendering p.prefer_sample_rate).2⟩
              - av_rescale_q
                  (to_int64 (to_uint64 (h.priv.vih.start_pts - h.priv.vih.skip_duration)))
                  ⟨1, to_int32 h.priv.vih.media_timescale⟩
                  ⟨1, (p.au_setup_audio_rendering p.prefer_sample_rate).2⟩)
        ∧ (prepare_audio_decoding p h).2.audio_pcm_sample_count
          = to_uint32 (to_int64
              (to_uint32 (p.count_overall_pcm_samples
                  (p.au_setup_audio_rendering p.prefer_sample_rate).2
                  h.priv.aoh.skip_decoded_samples).1
                + (prepare_audio_decoding p h).2.priv.av_gap)))
    ∧ (¬ (h.priv.av_sync ≠ 0 ∧ h.priv.vdh.track_ID ≠ 0) →
        (prepare_audio_decoding p h).2.priv.av_gap = h.priv.av_gap
        ∧ (prepare_audio_decoding p h).2.audio_pcm_sample_count
          = to_uint32 (p.count_overall_pcm_samples
              (p.au_setup_audio_rendering p.prefer_sample_rate).2
              h.priv.aoh.skip_decoded_samples).1) := by
  have hc0 : ¬ (h.priv.adh.ctx = false) := by simp [hctx]
  by_cases c1 : p.frame_alloc_ok = false
  · simp [prepare_audio_decoding, hc0, c1] at hret
  by_cases c2 : p.initialize_decoder_configuration ≠ 0
  · simp [prepare_audio_decoding, hc0, c1, c2] at hret
  by_cases c3 : (p.au_setup_audio_rendering p.prefer_sample_rate).1 < 0
  · simp [prepare_audio_decoding, hc0, c1, c2, c3] at hret
  by_cases c4 : to_uint32 (p.count_overall_pcm_samples
      (p.au_setup_audio_rendering p.prefer_sample_rate).2 h.priv.aoh.skip_decoded_samples).1 = 0
  · simp [prepare_audio_decoding, hc0, c1, c2, c3, c4] at hret
  refine ⟨?_, ?_, ?_⟩
  · by_cases c5 : h.priv.av_sync ≠ 0 ∧ h.priv.vdh.track_ID ≠ 0
    · simp only [prepare_audio_decoding, hc0, c1, c2, c3, c4, c5, if_true, if_false, and_self,
        not_false_eq_true, ne_eq, Bool.true_eq_false]
    · simp only [prepare_audio_decoding, hc0, c1, c2, c3, c4, c5, if_true, if_false, and_self,
        not_false_eq_true, ne_eq, Bool.true_eq_false]
  · intro c5
    simp only [prepare_audio_decoding, hc0, c1, c2, c3, c4, c5, if_true, if_false, and_self,
        not_false_eq_true, ne_eq, Bool.true_eq_false]
  · intro c5
    simp only [prepare_audio_decoding, hc0, c1, c2, c3, c4, c5, if_true, if_false, and_self,
        not_false_eq_true, ne_eq, Bool.true_eq_false]

/-- C8: after a successful `prepare_audio_decoding` on a bound audio track, if sync is
requested and a video track is bound (`vdh.track_ID` nonzero), `av_gap` is the audio
start in samples minus the video start in samples (`aih.start_pts`, respectively
`vih.start_pts - vih.skip_duration`, rescaled to the output sample rate) and
`audio_pcm_sample_count` is the counted PCM samples plus `av_gap`, for values the C
types of the computation hold; otherwise `av_gap` is left as it was (0 since
`open_file`) and `audio_pcm_sample_count` is the counted PCM samples. -/
theorem prepare_audio_decoding_sync_gap (p : audio_preparation) (h : lsmash_handler_t)
    (hctx : h.priv.adh.ctx = true) (hret : (prepare_audio_decoding p h).1 = 0) :
    (h.priv.av_sync ≠ 0 ∧ h.priv.vdh.track_ID ≠ 0 →
      in_int32 h.priv.aih.media_timescale → in_int32 h.priv.vih.media_timescale →
      in_int64 (h.priv.vih.start_pts - h.priv.vih.skip_duration) →
      in_int64 (audio_start_in_samples h.priv
            (prepare_audio_decoding p h).2.priv.aoh.output_sample_rate
          - video_start_in_samples h.priv
              (prepare_audio_decoding p h).2.priv.aoh.output_sample_rate) →
      0 ≤ (p.count_overall_pcm_samples
            (prepare_audio_decoding p h).2.priv.aoh.output_sample_rate
            h.priv.aoh.skip_decoded_samples).1 →
      (p.count_overall_pcm_samples
            (prepare_audio_decoding p h).2.priv.aoh.output_sample_rate
            h.priv.aoh.skip_decoded_samples).1 < 4294967296 →
      0 ≤ (p.count_overall_pcm_samples
            (prepare_audio_decoding p h).2.priv.aoh.output_sample_rate
            h.priv.aoh.skip_decoded_samples).1
          + (audio_start_in_samples h.priv
              (prepare_audio_decoding p h).2.priv.aoh.output_sample_rate
            - video_start_in_samples h.priv
                (prepare_audio_decoding p h).2.priv.aoh.output_sample_rate) →
      (p.count_overall_pcm_samples
            (prepare_audio_decoding p h).2.priv.aoh.output_sample_rate
            h.priv.aoh.skip_decoded_samples).1
          + (audio_start_in_samples h.priv
              (prepare_audio_decoding p h).2.priv.aoh.output_sample_rate
            - video_start_in_samples h.priv
                (prepare_audio_decoding p h).2.priv.aoh.output_sample_rate) < 4294967296 →
      (prepare_audio_decoding p h).2.priv.av_gap
          = audio_start_in_samples h.priv
              (prepare_audio_decoding p h).2.priv.aoh.output_sample_rate
            - video_start_in_samples h.priv
                (prepare_audio_decoding p h).2.priv.aoh.output_sample_rate
      ∧ (prepare_audio_decoding p h).2.audio_pcm_sample_count
          = (p.count_overall_pcm_samples
              (prepare_audio_decoding p h).2.priv.aoh.output_sample_rate
              h.priv.aoh.skip_decoded_samples).1
            + (prepare_audio_decoding p h).2.priv.av_gap)
    ∧ (¬ (h.priv.av_sync ≠ 0 ∧ h.priv.vdh.track_ID ≠ 0) →
      (prepare_audio_decoding p h).2.priv.av_gap = h.priv.av_gap
      ∧ (h.priv.av_gap = 0 → (prepare_audio_decoding p h).2.priv.av_gap = 0)
      ∧ (0 ≤ (p.count_overall_pcm_samples
            (prepare_audio_decoding p h).2.priv.aoh.output_sample_rate
            h.priv.aoh.skip_decoded_samples).1 →
        (p.count_overall_pcm_samples
            (prepare_audio_decoding p h).2.priv.aoh.output_sample_rate
            h.priv.aoh.skip_decoded_samples).1 < 4294967296 →
        (prepare_audio_decoding p h).2.audio_pcm_sample_count
          = (p.count_overall_pcm_samples
              (prepare_audio_decoding p h).2.priv.aoh.output_sample_rate
              h.priv.aoh.skip_decoded_samples).1)) := by
  obtain ⟨hrate, hsync, hnosync⟩ := prepare_audio_decoding_success p h hctx hret
  rw [hrate]
  constructor
  · intro hc ha hv hdiff hgap h0 h1 h2 h3
    obtain ⟨hg, hcount⟩ := hsync hc
    have hg' : (prepare_audio_decoding p h).2.priv.av_gap
        = audio_start_in_samples h.priv (p.au_setup_audio_rendering p.prefer_sample_rate).2
          - video_start_in_samples h.priv
              (p.au_setup_audio_rendering p.prefer_sample_rate).2 := by
      rw [hg, to_int32_of_in_int32 ha, to_int32_of_in_int32 hv]
      have hd : to_int64 (to_uint64 (h.priv.vih.start_pts - h.priv.vih.skip_duration))
          = h.priv.vih.start_pts - h.priv.vih.skip_duration := by
        have hdiff' := hdiff
        unfold in_int64 at hdiff'
        unfold to_int64 to_uint64
        omega
      rw [hd]
      exact to_int64_of_in_int64 hgap
    refine ⟨hg', ?_⟩
    rw [hcount, hg', to_uint32_of_range h0 h1]
    have hfit : in_int64 ((p.count_overall_pcm_samples
          (p.au_setup_audio_rendering p.prefer_sample_rate).2
          h.priv.aoh.skip_decoded_samples).1
        + (audio_start_in_samples h.priv (p.au_setup_audio_rendering p.prefer_sample_rate).2
          - video_start_in_samples h.priv
              (p.au_setup_audio_rendering p.prefer_sample_rate).2)) := by
      unfold in_int64
      constructor <;> omega
    rw [to_int64_of_in_int64 hfit]
    exact to_uint32_of_range h2 h3
  · intro hc
    obtain ⟨hg, hcount⟩ := hnosync hc
    refine ⟨hg, fun hz => hg.trans hz, ?_⟩
    intro h0 h1
    rw [hcount]
    exact to_uint32_of_range h0 h1

theorem prepare_audio_decoding_sync_gap_witness :
    (handler_both_bound_sync.priv.adh.ctx = true
      ∧ (prepare_audio_decoding audio_preparation_48k handler_both_bound_sync).1 = 0
      ∧ handler_both_bound_sync.priv.av_sync ≠ 0
      ∧ handler_both_bound_sync.priv.vdh.track_ID ≠ 0)
    ∧ audio_start_in_samples handler_both_bound_sync.priv 48000 = 4800
    ∧ video_start_in_samples handler_both_bound_sync.priv 48000 = 3203
    ∧ (prepare_audio_decoding audio_preparation_48k handler_both_bound_sync).2.priv.av_gap
        = 4800 - 3203
    ∧ (prepare_audio_decoding audio_preparation_48k
          handler_both_bound_sync).2.audio_pcm_sample_count = 480000 + (4800 - 3203) := by
  have hctx : handler_both_bound_sync.priv.adh.ctx = true := by decide
  have hret : (prepare_audio_decoding audio_preparation_48k handler_both_bound_sync).1 = 0 := by
    decide
  have hc : handler_both_bound_sync.priv.av_sync ≠ 0
      ∧ handler_both_bound_sync.priv.vdh.track_ID ≠ 0 := by decide
  have hrate : (prepare_audio_decoding audio_preparation_48k
      handler_both_bound_sync).2.priv.aoh.output_sample_rate = 48000 := by decide
  have ha : audio_start_in_samples handler_both_bound_sync.priv 48000 = 4800 := by decide
  have hv : video_start_in_samples handler_both_bound_sync.priv 48000 = 3203 := by decide
  have hw := (prepare_audio_decoding_sync_gap audio_preparation_48k handler_both_bound_sync
    hctx hret).1 hc
  rw [hrate, ha, hv] at hw
  have hw' := hw (by decide) (by decide) (by decide) (by decide) (by decide) (by decide)
    (by decide) (by decide)
  refine ⟨⟨hctx, hret, hc.1, hc.2⟩, ha, hv, hw'.1, ?_⟩
  rw [hw'.2, hw'.1]
  decide

/-! ## Forced reseek after preparation -/

theorem to_uint32_nonneg (x : Int) : 0 ≤ to_uint32 x := by
  unfold to_uint32
  omega

/-- A successful `prepare_audio_decoding` on a bound audio track ends with the
assignment `next_pcm_sample_number = audio_pcm_sample_count + 1`, on the final
count. -/
theorem prepare_audio_decoding_next_pcm_sample_number (p : audio_preparation)
    (h : lsmash_handler_t)
    (hctx : h.priv.adh.ctx = true) (hret : (prepare_audio_decoding p h).1 = 0) :
    (prepare_audio_decoding p h).2.priv.adh.next_pcm_sample_number
      = to_uint32 ((prepare_audio_decoding p h).2.audio_pcm_sample_count + 1) := by
  have hc0 : ¬ (h.priv.adh.ctx = false) := by simp [hctx]
  by_cases c1 : p.frame_alloc_ok = false
  · simp [prepare_audio_decoding, hc0, c1] at hret
  by_cases c2 : p.initialize_decoder_configuration ≠ 0
  · simp [prepare_audio_decoding, hc0, c1, c2] at hret
  by_cases c3 : (p.au_setup_audio_rendering p.prefer_sample_rate).1 < 0
  · simp [prepare_audio_decoding, hc0, c1, c2, c3] at hret
  by_cases c4 : to_uint32 (p.count_overall_pcm_samples
      (p.au_setup_audio_rendering p.prefer_sample_rate).2 h.priv.aoh.skip_decoded_samples).1 = 0
  · simp [prepare_audio_decoding, hc0, c1, c2, c3, c4] at hret
  by_cases c5 : h.priv.av_sync ≠ 0 ∧ h.priv.vdh.track_ID ≠ 0
  · simp only [prepare_audio_decoding, hc0, c1, c2, c3, c4, c5, if_true, if_false, and_self,
      not_false_eq_true, ne_eq, Bool.true_eq_false]
  · simp only [prepare_audio_decoding, hc0, c1, c2, c3, c4, c5, if_true, if_false, and_self,
      not_false_eq_true, ne_eq, Bool.true_eq_false]

/-- A successful `prepare_video_decoding` on a bound video track keeps
`sample_count` and ends with the assignment `last_sample_number = sample_count + 1`. -/
theorem prepare_video_decoding_success (q : video_preparation) (h : lsmash_handler_t)
    (hctx : h.priv.vdh.ctx = true) (hret : (prepare_video_decoding q h).1 = 0) :
    (prepare_video_decoding q h).2.priv.vdh.sample_count = h.priv.vdh.sample_count
    ∧ (prepare_video_decoding q h).2.priv.vdh.last_sample_number
      = to_uint32 (h.priv.vdh.sample_count + 1) := by
  have hc0 : ¬ (h.priv.vdh.ctx = false) := by simp [hctx]
  by_cases c1 : q.frame_alloc_ok = false
  · simp [prepare_video_decoding, hc0, c1] at hret
  by_cases c2 : q.create_keyframe_list < 0
  · simp [prepare_video_decoding, hc0, c1, c2] at hret
  by_cases c3 : q.initialize_decoder_configuration < 0
  · simp [prepare_video_decoding, hc0, c1, c2, c3] at hret
  by_cases c4 : q.au_setup_video_rendering = 0
  · simp [prepare_video_decoding, hc0, c1, c2, c3, c4] at hret
  by_cases c6 : q.find_first_valid_video_frame < 0
  · simp [prepare_video_decoding, hc0, c1, c2, c3, c4, c6] at hret
  by_cases c5 : q.vfr2cfr_active ≠ 0
  · simp only [prepare_video_decoding, hc0, c1, c2, c3, c4, c5, c6, if_true, if_false,
      and_self, not_false_eq_true, ne_eq, Bool.true_eq_false]
  · simp only [prepare_video_decoding, hc0, c1, c2, c3, c4, c5, c6, if_true, if_false,
      and_self, not_false_eq_true, ne_eq, Bool.true_eq_false]

/-- C11: every successful `prepare_audio_decoding` on a bound audio track ends with
`next_pcm_sample_number = audio_pcm_sample_count + 1` for the final count, the one
that includes `av_gap` when sync is requested and a video track is bound, and every
successful `prepare_video_decoding` on a bound video track ends with
`last_sample_number = sample_count + 1`; the sums are computed in `uint32_t`, hence
the plain sums whenever the count is below `UINT32_MAX`. -/
theorem forced_reseek_after_preparation (p : audio_preparation) (q : video_preparation)
    (ha hv : lsmash_handler_t) :
    (ha.priv.adh.ctx = true → (prepare_audio_decoding p ha).1 = 0 →
      (prepare_audio_decoding p ha).2.priv.adh.next_pcm_sample_number
        = to_uint32 ((prepare_audio_decoding p ha).2.audio_pcm_sample_count + 1)
      ∧ ((prepare_audio_decoding p ha).2.audio_pcm_sample_count < 4294967295 →
          (prepare_audio_decoding p ha).2.priv.adh.next_pcm_sample_number
            = (prepare_audio_decoding p ha).2.audio_pcm_sample_count + 1)
      ∧ (ha.priv.av_sync ≠ 0 ∧ ha.priv.vdh.track_ID ≠ 0 →
          (prepare_audio_decoding p ha).2.audio_pcm_sample_count
            = to_uint32 (to_int64
                (to_uint32 (p.count_overall_pcm_samples
                    (prepare_audio_decoding p ha).2.priv.aoh.output_sample_rate
                    ha.priv.aoh.skip_decoded_samples).1
                  + (prepare_audio_decoding p ha).2.priv.av_gap))))
    ∧ (hv.priv.vdh.ctx = true → (prepare_video_decoding q hv).1 = 0 →
      (prepare_video_decoding q hv).2.priv.vdh.last_sample_number
        = to_uint32 ((prepare_video_decoding q hv).2.priv.vdh.sample_count + 1)
      ∧ (prepare_video_decoding q hv).2.priv.vdh.sample_count = hv.priv.vdh.sample_count
      ∧ (0 ≤ (prepare_video_decoding q hv).2.priv.vdh.sample_count →
          (prepare_video_decoding q hv).2.priv.vdh.sample_count < 4294967295 →
          (prepare_video_decoding q hv).2.priv.vdh.last_sample_number
            = (prepare_video_decoding q hv).2.priv.vdh.sample_count + 1)) := by
  constructor
  · intro hctx hret
    have hnext := prepare_audio_decoding_next_pcm_sample_number p ha hctx hret
    obtain ⟨hrate, hsync, hnosync⟩ := prepare_audio_decoding_success p ha hctx hret
    have hnonneg : 0 ≤ (prepare_audio_decoding p ha).2.audio_pcm_sample_count := by
      by_cases hc : ha.priv.av_sync ≠ 0 ∧ ha.priv.vdh.track_ID ≠ 0
      · rw [(hsync hc).2]
        exact to_uint32_nonneg _
      · rw [(hnosync hc).2]
        exact to_uint32_nonneg _
    refine ⟨hnext, ?_, ?_⟩
    · intro hlt
      rw [hnext]
      exact to_uint32_of_range (by omega) (by omega)
    · intro hc
      rw [hrate]
      exact (hsync hc).2
  · intro hctx hret
    obtain ⟨hcount, hlast⟩ := prepare_video_decoding_success q hv hctx hret
    rw [hcount, hlast]
    refine ⟨rfl, rfl, ?_⟩
    intro h0 hlt
    exact to_uint32_of_range (by omega) (by omega)

theorem forced_reseek_after_preparation_witness :
    (handler_both_bound_sync.priv.adh.ctx = true
      ∧ (prepare_audio_decoding audio_preparation_48k handler_both_bound_sync).1 = 0
      ∧ handler_both_bound_sync.priv.vdh.ctx = true
      ∧ (prepare_video_decoding video_preparation_vfr handler_both_bound_sync).1 = 0)
    ∧ (prepare_audio_decoding audio_preparation_48k
          handler_both_bound_sync).2.audio_pcm_sample_count = 481597
    ∧ (prepare_audio_decoding audio_preparation_48k
          handler_both_bound_sync).2.priv.adh.next_pcm_sample_number = 481597 + 1
    ∧ (prepare_video_decoding video_preparation_vfr
          handler_both_bound_sync).2.priv.vdh.sample_count = 3000
    ∧ (prepare_video_decoding video_preparation_vfr
          handler_both_bound_sync).2.priv.vdh.last_sample_number = 3000 + 1 := by
  have hactx : handler_both_bound_sync.priv.adh.ctx = true := by decide
  have haret : (prepare_audio_decoding audio_preparation_48k handler_both_bound_sync).1 = 0 := by
    decide
  have hvctx : handler_both_bound_sync.priv.vdh.ctx = true := by decide
  have hvret : (prepare_video_decoding video_preparation_vfr handler_both_bound_sync).1 = 0 := by
    decide
  have hcount : (prepare_audio_decoding audio_preparation_48k
      handler_both_bound_sync).2.audio_pcm_sample_count = 481597 := by decide
  have hw := forced_reseek_after_preparation audio_preparation_48k video_preparation_vfr
    handler_both_bound_sync handler_both_bound_sync
  obtain ⟨_, hnext, _⟩ := hw.1 hactx haret
  obtain ⟨_, hsame, hlast⟩ := hw.2 hvctx hvret
  have hsc : (prepare_video_decoding video_preparation_vfr
      handler_both_bound_sync).2.priv.vdh.sample_count = 3000 := hsame.trans (by decide)
  rw [hcount] at hnext
  rw [hsc] at hlast
  exact ⟨⟨hactx, haret, hvctx, hvret⟩, hcount, hnext (by decide), hsc,
    hlast (by decide) (by decide)⟩

/-! ## The CFR frame count -/

theorem round_half_even_of_dvd (n d : Nat) (hd : 0 < d) (hdvd : d ∣ n) :
    round_half_even n d = n / d := by
  have hmod : n % d = 0 := Nat.mod_eq_zero_of_dvd hdvd
  unfold round_half_even
  rw [hmod]
  simp [hd]

theorem binary64_round_loop_den_pos :
    ∀ (fuel n d up down : Nat), 0 < down → 0 < (binary64_round_loop fuel n d up down).2 := by
  intro fuel
  induction fuel with
  | zero => intro n d up down hdown; simpa [binary64_round_loop] using hdown
  | succ fuel ih =>
    intro n d up down hdown
    unfold binary64_round_loop
    split_ifs
    · exact ih n (2 * d) (2 * up) down hdown
    · exact ih (2 * n) d up (2 * down) (by omega)
    · exact hdown

/-- A value with at most 53 significant bits is its own rounding: if `n * 2^j / d` is
an integer below `2^53`, the loop returns `(n / d) * (up / down)` exactly. -/
theorem binary64_round_loop_exact :
    ∀ (fuel j n d up down : Nat), j ≤ fuel → 0 < d → d ∣ n * 2 ^ j →
      n * 2 ^ j < 9007199254740992 * d →
      (binary64_round_loop fuel n d up down).1 * down * d
        = n * up * (binary64_round_loop fuel n d up down).2 := by
  intro fuel
  induction fuel with
  | zero =>
    intro j n d up down hj hd hdvd hlt
    have hj0 : j = 0 := by omega
    subst hj0
    simp only [pow_zero, mul_one] at hdvd hlt
    simp only [binary64_round_loop, round_half_even_of_dvd n d hd hdvd]
    have hnd : n / d * d = n := Nat.div_mul_cancel hdvd
    calc n / d * up * down * d = (n / d * d) * up * down := by ring
      _ = n * up * down := by rw [hnd]
  | succ fuel ih =>
    intro j n d up down hj hd hdvd hlt
    have hpow : 1 ≤ 2 ^ j := Nat.one_le_two_pow
    have hn : n < 9007199254740992 * d := by
      calc n = n * 1 := (mul_one n).symm
        _ ≤ n * 2 ^ j := Nat.mul_le_mul_left n hpow
        _ < 9007199254740992 * d := hlt
    unfold binary64_round_loop
    rw [if_neg (by omega)]
    by_cases hsmall : n < 4503599627370496 * d
    · rw [if_pos hsmall]
      cases j with
      | zero =>
        simp only [pow_zero, mul_one] at hdvd hlt
        have h := ih 0 (2 * n) d up (2 * down) (Nat.zero_le _) hd
          (by simpa using Dvd.dvd.mul_left hdvd 2) (by simp only [pow_zero, mul_one]; omega)
        have h2 : 2 * ((binary64_round_loop fuel (2 * n) d up (2 * down)).1 * down * d)
            = 2 * (n * up * (binary64_round_loop fuel (2 * n) d up (2 * down)).2) := by
          calc 2 * ((binary64_round_loop fuel (2 * n) d up (2 * down)).1 * down * d)
              = (binary64_round_loop fuel (2 * n) d up (2 * down)).1 * (2 * down) * d := by ring
            _ = 2 * n * up * (binary64_round_loop fuel (2 * n) d up (2 * down)).2 := h
            _ = 2 * (n * up * (binary64_round_loop fuel (2 * n) d up (2 * down)).2) := by ring
        exact Nat.eq_of_mul_eq_mul_left (by decide) h2
      | succ j =>
        have he : 2 * n * 2 ^ j = n * 2 ^ (j + 1) := by rw [pow_succ]; ring
        have h := ih j (2 * n) d up (2 * down) (by omega) hd (by rw [he]; exact hdvd)
          (by rw [he]; exact hlt)
        have h2 : 2 * ((binary64_round_loop fuel (2 * n) d up (2 * down)).1 * down * d)
            = 2 * (n * up * (binary64_round_loop fuel (2 * n) d up (2 * down)).2) := by
          calc 2 * ((binary64_round_loop fuel (2 * n) d up (2 * down)).1 * down * d)
              = (binary64_round_loop fuel (2 * n) d up (2 * down)).1 * (2 * down) * d := by ring
            _ = 2 * n * up * (binary64_round_loop fuel (2 * n) d up (2 * down)).2 := h
            _ = 2 * (n * up * (binary64_round_loop fuel (2 * n) d up (2 * down)).2) := by ring
        exact Nat.eq_of_mul_eq_mul_left (by decide) h2
    · rw [if_neg hsmall]
      have hj0 : j = 0 := by
        cases j with
        | zero => rfl
        | succ j =>
          exfalso
          have h2 : 2 ≤ 2 ^ (j + 1) := by
            rw [pow_succ]
            have := @Nat.one_le_two_pow j
            omega
          have h3 : n * 2 ≤ n * 2 ^ (j + 1) := Nat.mul_le_mul_left n h2
          omega
      subst hj0
      simp only [pow_zero, mul_one] at hdvd
      simp only [round_half_even_of_dvd n d hd hdvd]
      have hnd : n / d * d = n := Nat.div_mul_cancel hdvd
      calc n / d * up * down * d = (n / d * d) * up * down := by ring
        _ = n * up * down := by rw [hnd]

theorem binary64_round_den_pos (n d : Nat) : 0 < (binary64_round n d).2 := by
  unfold binary64_round
  split_ifs
  · decide
  · exact binary64_round_loop_den_pos _ _ _ _ _ (by decide)

/-- The rounding of `v / 2^j` for an integer `v` below `2^53` (with `j` at most 1 here). -/
theorem binary64_round_exact (n d j : Nat) (hj : j ≤ 1) (hd : 0 < d) (hdvd : d ∣ n * 2 ^ j)
    (hlt : n * 2 ^ j < 9007199254740992 * d) :
    (binary64_round n d).1 * d = n * (binary64_round n d).2 := by
  unfold binary64_round
  split_ifs with h0
  · simp [h0]
  · have h := binary64_round_loop_exact (n + d + 54) j n d 1 1 (by omega) hd hdvd hlt
    simpa using h

theorem binary64_round_of_quotient (n d v : Nat) (hd : 0 < d) (hn : n = v * d)
    (hv : v < 9007199254740992) :
    (binary64_round n d).1 = v * (binary64_round n d).2 := by
  have h := binary64_round_exact n d 0 (by omega) hd
    (by rw [hn, pow_zero, mul_one]; exact Dvd.intro_left v rfl)
    (by rw [hn, pow_zero, mul_one]; exact Nat.mul_lt_mul_of_pos_right hv hd)
  rw [hn] at h ⊢
  have h2 : d * (binary64_round (v * d) d).1 = d * (v * (binary64_round (v * d) d).2) := by
    calc d * (binary64_round (v * d) d).1 = (binary64_round (v * d) d).1 * d := by ring
      _ = v * d * (binary64_round (v * d) d).2 := h
      _ = d * (v * (binary64_round (v * d) d).2) := by ring
  exact Nat.eq_of_mul_eq_mul_left hd h2

theorem binary64_round_of_half_quotient (n d v : Nat) (hd : 0 < d) (hn : 2 * n = v * d)
    (hv : v < 9007199254740992) :
    2 * (binary64_round n d).1 = v * (binary64_round n d).2 := by
  have h := binary64_round_exact n d 1 (le_refl 1) hd
    (by rw [pow_one, mul_comm n 2, hn]; exact Dvd.intro_left v rfl)
    (by rw [pow_one, mul_comm n 2, hn]; exact Nat.mul_lt_mul_of_pos_right hv hd)
  have h2 : d * (2 * (binary64_round n d).1) = d * (v * (binary64_round n d).2) := by
    calc d * (2 * (binary64_round n d).1) = 2 * ((binary64_round n d).1 * d) := by ring
      _ = 2 * (n * (binary64_round n d).2) := by rw [h]
      _ = (2 * n) * (binary64_round n d).2 := by ring
      _ = v * d * (binary64_round n d).2 := by rw [hn]
      _ = d * (v * (binary64_round n d).2) := by ring
  exact Nat.eq_of_mul_eq_mul_left hd h2

theorem div_of_half_quotient (f1 f2 v : Nat) (hpos : 0 < f2)
    (h : 2 * f1 = (2 * v + 1) * f2) : f1 / f2 = v := by
  have hexp : (2 * v + 1) * f2 = 2 * (v * f2) + f2 := by ring
  have hsucc : (v + 1) * f2 = v * f2 + f2 := by ring
  rw [hexp] at h
  apply Nat.div_eq_of_lt_le
  · generalize v * f2 = t at h
    omega
  · show f1 < (v + 1) * f2
    rw [hsucc]
    generalize v * f2 = t at h
    omega

/-- When the rate `rate * den / den` and the duration in seconds `seconds * ts / ts`
are whole numbers, every operation of the double computation is exact and the frame
count is `rate * seconds`. -/
theorem cfr_frame_count_of_whole (rate seconds den ts : Nat) (hden : 0 < den) (hts : 0 < ts)
    (hden53 : den < 9007199254740992) (hts53 : ts < 9007199254740992)
    (hnum : rate * den < 9007199254740992) (hdur : seconds * ts < 9007199254740992)
    (hcount : rate * seconds < 4294967296) :
    cfr_frame_count ((rate * den : Nat) : Int) (den : Int) ((seconds * ts : Nat) : Int)
      (ts : Int) = ((rate * seconds : Nat) : Int) := by
  have hrate : rate < 9007199254740992 :=
    lt_of_le_of_lt (Nat.le_mul_of_pos_right rate hden) hnum
  have hseconds : seconds < 9007199254740992 :=
    lt_of_le_of_lt (Nat.le_mul_of_pos_right seconds hts) hdur
  unfold cfr_frame_count binary64_add binary64_mul binary64_div binary64_of_int
  simp only [Int.toNat_ofNat]
  -- the four conversions
  have e1 := binary64_round_of_quotient (rate * den) 1 (rate * den) (by decide)
    (mul_one _).symm hnum
  have e2 := binary64_round_of_quotient den 1 den (by decide) (mul_one _).symm hden53
  have e3 := binary64_round_of_quotient (seconds * ts) 1 (seconds * ts) (by decide)
    (mul_one _).symm hdur
  have e4 := binary64_round_of_quotient ts 1 ts (by decide) (mul_one _).symm hts53
  have p1 := binary64_round_den_pos (rate * den) 1
  have p2 := binary64_round_den_pos den 1
  have p3 := binary64_round_den_pos (seconds * ts) 1
  have p4 := binary64_round_den_pos ts 1
  generalize binary64_round (rate * den) 1 = x1 at e1 p1 ⊢
  generalize binary64_round den 1 = x2 at e2 p2 ⊢
  generalize binary64_round (seconds * ts) 1 = x3 at e3 p3 ⊢
  generalize binary64_round ts 1 = x4 at e4 p4 ⊢
  -- the two quotients
  have q1 := binary64_round_of_quotient (x1.1 * x2.2) (x1.2 * x2.1) rate
    (by rw [e2]; exact Nat.mul_pos p1 (Nat.mul_pos hden p2))
    (by rw [e1, e2]; ring) hrate
  have q2 := binary64_round_of_quotient (x3.1 * x4.2) (x3.2 * x4.1) seconds
    (by rw [e4]; exact Nat.mul_pos p3 (Nat.mul_pos hts p4))
    (by rw [e3, e4]; ring) hseconds
  have pq1 := binary64_round_den_pos (x1.1 * x2.2) (x1.2 * x2.1)
  have pq2 := binary64_round_den_pos (x3.1 * x4.2) (x3.2 * x4.1)
  generalize binary64_round (x1.1 * x2.2) (x1.2 * x2.1) = y1 at q1 pq1 ⊢
  generalize binary64_round (x3.1 * x4.2) (x3.2 * x4.1) = y2 at q2 pq2 ⊢
  -- the product
  have m := binary64_round_of_quotient (y1.1 * y2.1) (y1.2 * y2.2) (rate * seconds)
    (Nat.mul_pos pq1 pq2) (by rw [q1, q2]; ring) (by omega)
  have pm := binary64_round_den_pos (y1.1 * y2.1) (y1.2 * y2.2)
  generalize binary64_round (y1.1 * y2.1) (y1.2 * y2.2) = z at m pm ⊢
  -- the sum with 0.5
  have a := binary64_round_of_half_quotient (z.1 * 2 + 1 * z.2) (z.2 * 2)
    (2 * (rate * seconds) + 1) (by omega) (by rw [m]; ring) (by omega)
  have pa := binary64_round_den_pos (z.1 * 2 + 1 * z.2) (z.2 * 2)
  generalize binary64_round (z.1 * 2 + 1 * z.2) (z.2 * 2) = w at a pa ⊢
  have hdiv : w.1 / w.2 = rate * seconds := div_of_half_quotient w.1 w.2 _ pa a
  have hcast : ((w.1 : Int) / (w.2 : Int)) = ((rate * seconds : Nat) : Int) := by
    rw [← hdiv]
    exact (Int.natCast_div w.1 w.2).symm
  show to_uint32 ((w.1 : Int) / (w.2 : Int)) = ((rate * seconds : Nat) : Int)
  rw [hcast]
  exact to_uint32_of_range (Int.natCast_nonneg _) (by exact_mod_cast hcount)

theorem cfr_frame_count_formula_of_whole (rate seconds den ts : Nat) (hden : 0 < den)
    (hts : 0 < ts) :
    cfr_frame_count_formula ((rate * den : Nat) : Int) (den : Int) ((seconds * ts : Nat) : Int)
      (ts : Int) = ((rate * seconds : Nat) : Int) := by
  have hdenq : (den : ℚ) ≠ 0 := by exact_mod_cast hden.ne'
  have htsq : (ts : ℚ) ≠ 0 := by exact_mod_cast hts.ne'
  have hval : (((rate * den : Nat) : Int) : ℚ) / (((den : Nat) : Int) : ℚ)
      * ((((seconds * ts : Nat) : Int) : ℚ) / (((ts : Nat) : Int) : ℚ)) + 1 / 2
      = (((rate * seconds : Nat) : Int) : ℚ) + 1 / 2 := by
    push_cast
    field_simp
  unfold cfr_frame_count_formula
  rw [hval, Int.floor_eq_iff]
  constructor <;> linarith

/-- For a whole rate `num / den` and a whole number of seconds
`media_duration / media_timescale`, inside the ranges in which the conversions to
`double` are exact and with a count that fits `uint32_t`, the double computation
and the exact formula agree: both give the product of the two quotients. -/
theorem cfr_frame_count_eq_formula (num den media_duration media_timescale : Int)
    (hnum : 0 ≤ num) (hnum53 : num < 9007199254740992)
    (hden : 0 < den) (hden53 : den < 9007199254740992)
    (hdur : 0 ≤ media_duration) (hdur53 : media_duration < 9007199254740992)
    (hts : 0 < media_timescale) (hts53 : media_timescale < 9007199254740992)
    (hrate : den ∣ num) (hseconds : media_timescale ∣ media_duration)
    (hcount : num / den * (media_duration / media_timescale) < 4294967296) :
    cfr_frame_count num den media_duration media_timescale
        = num / den * (media_duration / media_timescale)
    ∧ cfr_frame_count_formula num den media_duration media_timescale
        = num / den * (media_duration / media_timescale) := by
  obtain ⟨rate, hr⟩ := hrate
  obtain ⟨seconds, hsec⟩ := hseconds
  have hrate0 : 0 ≤ rate := by
    by_contra hneg
    have : den * rate < 0 := mul_neg_of_pos_of_neg hden (not_le.mp hneg)
    omega
  have hsec0 : 0 ≤ seconds := by
    by_contra hneg
    have : media_timescale * seconds < 0 := mul_neg_of_pos_of_neg hts (not_le.mp hneg)
    omega
  lift rate to Nat using hrate0
  lift seconds to Nat using hsec0
  lift den to Nat using hden.le
  lift media_timescale to Nat using hts.le
  have hden' : 0 < den := by exact_mod_cast hden
  have hts' : 0 < media_timescale := by exact_mod_cast hts
  have hnumeq : num = ((rate * den : Nat) : Int) := by rw [hr]; push_cast; ring
  have hdureq : media_duration = ((seconds * media_timescale : Nat) : Int) := by
    rw [hsec]; push_cast; ring
  have hq1 : num / (den : Int) = (rate : Int) := by
    rw [hr]
    exact Int.mul_ediv_cancel_left _ hden.ne'
  have hq2 : media_duration / (media_timescale : Int) = (seconds : Int) := by
    rw [hsec]
    exact Int.mul_ediv_cancel_left _ hts.ne'
  rw [hq1, hq2] at hcount ⊢
  rw [hnumeq] at hnum53
  rw [hdureq] at hdur53
  rw [hnumeq, hdureq]
  have hprod : ((rate : Int) * (seconds : Int)) = ((rate * seconds : Nat) : Int) := by
    push_cast; ring
  rw [hprod] at hcount ⊢
  exact ⟨cfr_frame_count_of_whole rate seconds den media_timescale hden' hts'
      (by exact_mod_cast hden53) (by exact_mod_cast hts53) (by exact_mod_cast hnum53)
      (by exact_mod_cast hdur53) (by exact_mod_cast hcount),
    cfr_frame_count_formula_of_whole rate seconds den media_timescale hden' hts'⟩

/-- The decision of `prepare_video_decoding` on the frame count, for a successful call
on a bound video track. -/
theorem prepare_video_decoding_frame_count_eq (q : video_preparation) (h : lsmash_handler_t)
    (hctx : h.priv.vdh.ctx = true) (hret : (prepare_video_decoding q h).1 = 0) :
    (prepare_video_decoding q h).2.video_sample_count
        = (prepare_video_decoding q h).2.priv.voh.frame_count
    ∧ (q.vfr2cfr_active ≠ 0 →
        (prepare_video_decoding q h).2.priv.voh.frame_count
          = cfr_frame_count (to_uint32 q.vfr2cfr_framerate_num)
              (to_uint32 q.vfr2cfr_framerate_den) h.priv.vdh.media_duration
              h.priv.vdh.media_timescale)
    ∧ (q.vfr2cfr_active = 0 →
        (prepare_video_decoding q h).2.priv.voh.frame_count = h.priv.vdh.sample_count) := by
  have hc0 : ¬ (h.priv.vdh.ctx = false) := by simp [hctx]
  by_cases c1 : q.frame_alloc_ok = false
  · simp [prepare_video_decoding, hc0, c1] at hret
  by_cases c2 : q.create_keyframe_list < 0
  · simp [prepare_video_decoding, hc0, c1, c2] at hret
  by_cases c3 : q.initialize_decoder_configuration < 0
  · simp [prepare_video_decoding, hc0, c1, c2, c3] at hret
  by_cases c4 : q.au_setup_video_rendering = 0
  · simp [prepare_video_decoding, hc0, c1, c2, c3, c4] at hret
  by_cases c6 : q.find_first_valid_video_frame < 0
  · simp [prepare_video_decoding, hc0, c1, c2, c3, c4, c6] at hret
  by_cases c5 : q.vfr2cfr_active ≠ 0
  · refine ⟨?_, fun _ => ?_, fun hz => absurd hz c5⟩ <;>
      simp only [prepare_video_decoding, hc0, c1, c2, c3, c4, c5, c6, if_true, if_false,
        and_self, not_false_eq_true, ne_eq, Bool.true_eq_false]
  · refine ⟨?_, fun hnz => absurd hnz c5, fun _ => ?_⟩ <;>
      simp only [prepare_video_decoding, hc0, c1, c2, c3, c4, c5, c6, if_true, if_false,
        and_self, not_false_eq_true, ne_eq, Bool.true_eq_false]

/-- The scaling loop ends at the right exponent when it has steps enough: the value
it rounds to an integer lies in `[2^52, 2^53)`, so the result has 53 significant
bits. -/
theorem binary64_round_loop_normalized :
    ∀ (fuel n d up down : Nat), 0 < d →
      (9007199254740992 * d ≤ n → n < 9007199254740992 * d * 2 ^ fuel) →
      (n < 4503599627370496 * d → 4503599627370496 * d ≤ n * 2 ^ fuel) →
      ∃ s t : Nat,
        4503599627370496 * (d * 2 ^ t) ≤ n * 2 ^ s
        ∧ n * 2 ^ s < 9007199254740992 * (d * 2 ^ t)
        ∧ binary64_round_loop fuel n d up down
            = (round_half_even (n * 2 ^ s) (d * 2 ^ t) * (up * 2 ^ t), down * 2 ^ s) := by
  intro fuel
  induction fuel with
  | zero =>
    intro n d up down hd hbig hsmall
    simp only [pow_zero, mul_one] at hbig hsmall
    refine ⟨0, 0, ?_, ?_, ?_⟩
    · simp only [pow_zero, mul_one]
      by_contra hc
      have := hsmall (by omega)
      omega
    · simp only [pow_zero, mul_one]
      by_contra hc
      have := hbig (by omega)
      omega
    · simp [binary64_round_loop]
  | succ fuel ih =>
    intro n d up down hd hbig hsmall
    unfold binary64_round_loop
    by_cases h1 : 9007199254740992 * d ≤ n
    · rw [if_pos h1]
      have hb := hbig h1
      obtain ⟨s, t, hlo, hhi, heq⟩ := ih n (2 * d) (2 * up) down (by omega)
        (fun _ => by rw [pow_succ] at hb; calc n < 9007199254740992 * d * (2 ^ fuel * 2) := hb
                       _ = 9007199254740992 * (2 * d) * 2 ^ fuel := by ring)
        (fun hlt => by omega)
      refine ⟨s, t + 1, ?_, ?_, ?_⟩
      · rw [show d * 2 ^ (t + 1) = 2 * d * 2 ^ t by rw [pow_succ]; ring]
        exact hlo
      · rw [show d * 2 ^ (t + 1) = 2 * d * 2 ^ t by rw [pow_succ]; ring]
        exact hhi
      · rw [heq, show d * 2 ^ (t + 1) = 2 * d * 2 ^ t by rw [pow_succ]; ring,
          show up * 2 ^ (t + 1) = 2 * up * 2 ^ t by rw [pow_succ]; ring]
    · rw [if_neg h1]
      by_cases h2 : n < 4503599627370496 * d
      · rw [if_pos h2]
        have hs := hsmall h2
        obtain ⟨s, t, hlo, hhi, heq⟩ := ih (2 * n) d up (2 * down) hd
          (fun hge => by omega)
          (fun _ => by rw [pow_succ] at hs; calc 4503599627370496 * d ≤ n * (2 ^ fuel * 2) := hs
                         _ = 2 * n * 2 ^ fuel := by ring)
        refine ⟨s + 1, t, ?_, ?_, ?_⟩
        · rw [show n * 2 ^ (s + 1) = 2 * n * 2 ^ s by rw [pow_succ]; ring]
          exact hlo
        · rw [show n * 2 ^ (s + 1) = 2 * n * 2 ^ s by rw [pow_succ]; ring]
          exact hhi
        · rw [heq, show n * 2 ^ (s + 1) = 2 * n * 2 ^ s by rw [pow_succ]; ring,
            show down * 2 ^ (s + 1) = 2 * down * 2 ^ s by rw [pow_succ]; ring]
      · rw [if_neg h2]
        refine ⟨0, 0, ?_, ?_, ?_⟩
        · simp only [pow_zero, mul_one]; omega
        · simp only [pow_zero, mul_one]; omega
        · simp

/-- The function `binary64_round` always has steps enough: for positive `n` and `d`
it returns `n / d` scaled by a power of two into `[2^52, 2^53)`, rounded there to the
nearest integer with halves to even, and scaled back. -/
theorem binary64_round_normalized (n d : Nat) (hn : 0 < n) (hd : 0 < d) :
    ∃ s t : Nat,
      4503599627370496 * (d * 2 ^ t) ≤ n * 2 ^ s
      ∧ n * 2 ^ s < 9007199254740992 * (d * 2 ^ t)
      ∧ binary64_round n d = (round_half_even (n * 2 ^ s) (d * 2 ^ t) * 2 ^ t, 2 ^ s) := by
  have hpow : ∀ k : Nat, k < 2 ^ k := fun k => Nat.lt_two_pow k
  have hmono : ∀ a b : Nat, a ≤ b → 2 ^ a ≤ 2 ^ b :=
    fun a b hab => Nat.pow_le_pow_right (by decide) hab
  obtain ⟨s, t, hlo, hhi, heq⟩ := binary64_round_loop_normalized (n + d + 54) n d 1 1 hd
    (fun _ => by
      have h1 : n < 2 ^ (n + d + 54) := lt_of_lt_of_le (hpow n) (hmono _ _ (by omega))
      have h2 : 1 ≤ 9007199254740992 * d := by omega
      calc n < 2 ^ (n + d + 54) := h1
        _ = 1 * 2 ^ (n + d + 54) := (one_mul _).symm
        _ ≤ 9007199254740992 * d * 2 ^ (n + d + 54) := Nat.mul_le_mul_right _ h2)
    (fun _ => by
      have h1 : d < 2 ^ d := hpow d
      have h2 : (4503599627370496 : Nat) = 2 ^ 52 := by norm_num
      calc 4503599627370496 * d ≤ 4503599627370496 * 2 ^ d := Nat.mul_le_mul_left _ h1.le
        _ = 2 ^ (52 + d) := by rw [h2, pow_add]
        _ ≤ 2 ^ (n + d + 54) := hmono _ _ (by omega)
        _ = 1 * 2 ^ (n + d + 54) := (one_mul _).symm
        _ ≤ n * 2 ^ (n + d + 54) := Nat.mul_le_mul_right _ hn)
  refine ⟨s, t, hlo, hhi, ?_⟩
  unfold binary64_round
  rw [if_neg (by omega), heq]
  simp

/-- The rounding of `round_half_even` is to a nearest integer: the result differs
from `n / d` by at most one half. -/
theorem round_half_even_nearest (n d : Nat) (hd : 0 < d) :
    2 * (round_half_even n d * d) ≤ 2 * n + d
    ∧ 2 * n ≤ 2 * (round_half_even n d * d) + d := by
  have hdiv : d * (n / d) + n % d = n := Nat.div_add_mod n d
  have hmod : n % d < d := Nat.mod_lt n hd
  have hcomm : n / d * d = d * (n / d) := Nat.mul_comm _ _
  unfold round_half_even
  split_ifs with h1 h2
  · rw [hcomm]
    generalize d * (n / d) = t at hdiv
    omega
  · rw [Nat.add_mul, hcomm, one_mul]
    generalize d * (n / d) = t at hdiv
    omega
  · have hhalf : 2 * (n % d) = d := by omega
    rcases Nat.mod_two_eq_zero_or_one (n / d) with h0 | h0
    · rw [h0, Nat.add_zero, hcomm]
      generalize d * (n / d) = t at hdiv
      omega
    · rw [h0, Nat.add_mul, hcomm, one_mul]
      generalize d * (n / d) = t at hdiv
      omega

/-- The rounding error of `binary64_round` is at most `2^-53` of the value, written
without division: for the result `p / q` of rounding `n / d`,
`|p * d - n * q| * 2^53 ≤ n * q`. -/
theorem binary64_round_relative_error (n d : Nat) (hd : 0 < d) :
    9007199254740992 * ((binary64_round n d).1 * d)
        ≤ 9007199254740993 * (n * (binary64_round n d).2)
    ∧ 9007199254740991 * (n * (binary64_round n d).2)
        ≤ 9007199254740992 * ((binary64_round n d).1 * d) := by
  rcases Nat.eq_zero_or_pos n with h0 | hn
  · subst h0
    simp [binary64_round]
  · obtain ⟨s, t, hlo, hhi, heq⟩ := binary64_round_normalized n d hn hd
    obtain ⟨hup, hdown⟩ := round_half_even_nearest (n * 2 ^ s) (d * 2 ^ t)
      (Nat.mul_pos hd (Nat.two_pow_pos t))
    rw [heq]
    have hpd : round_half_even (n * 2 ^ s) (d * 2 ^ t) * 2 ^ t * d
        = round_half_even (n * 2 ^ s) (d * 2 ^ t) * (d * 2 ^ t) := by ring
    simp only [hpd]
    generalize round_half_even (n * 2 ^ s) (d * 2 ^ t) * (d * 2 ^ t) = md at hup hdown ⊢
    generalize n * 2 ^ s = N at hlo hhi hup hdown ⊢
    generalize d * 2 ^ t = D at hlo hhi hup hdown ⊢
    constructor <;> omega

/-- The rounding error of `binary64_round` as an interval:
the result lies within `2^-53` of the value, relatively. -/
theorem binary64_value_round_bounds (n d : Nat) (hd : 0 < d) :
    (1 - 1 / 9007199254740992) * ((n : ℚ) / (d : ℚ)) ≤ binary64_value (binary64_round n d)
    ∧ binary64_value (binary64_round n d)
        ≤ (1 + 1 / 9007199254740992) * ((n : ℚ) / (d : ℚ)) := by
  obtain ⟨hup, hdown⟩ := binary64_round_relative_error n d hd
  have hq := binary64_round_den_pos n d
  generalize binary64_round n d = r at hup hdown hq ⊢
  have hdq : (0 : ℚ) < d := by exact_mod_cast hd
  have hrq : (0 : ℚ) < r.2 := by exact_mod_cast hq
  have hup' : (9007199254740992 : ℚ) * ((r.1 : ℚ) * d) ≤ 9007199254740993 * ((n : ℚ) * r.2) := by
    exact_mod_cast hup
  have hdown' : (9007199254740991 : ℚ) * ((n : ℚ) * r.2)
      ≤ 9007199254740992 * ((r.1 : ℚ) * d) := by
    exact_mod_cast hdown
  unfold binary64_value
  constructor
  · rw [le_div_iff₀ hrq]
    have h : (1 - 1 / 9007199254740992) * ((n : ℚ) / (d : ℚ)) * (r.2 : ℚ)
        = 9007199254740991 * ((n : ℚ) * r.2) / (9007199254740992 * d) := by
      field_simp
      ring
    rw [h, div_le_iff₀ (by positivity)]
    linarith
  · rw [div_le_iff₀ hrq]
    have h : (1 + 1 / 9007199254740992) * ((n : ℚ) / (d : ℚ)) * (r.2 : ℚ)
        = 9007199254740993 * ((n : ℚ) * r.2) / (9007199254740992 * d) := by
      field_simp
      ring
    rw [h, le_div_iff₀ (by positivity)]
    linarith

theorem binary64_value_nonneg (x : Nat × Nat) : 0 ≤ binary64_value x := by
  unfold binary64_value
  positivity

theorem binary64_value_of_quotient (x : Nat × Nat) (v : Nat) (hpos : 0 < x.2)
    (h : x.1 = v * x.2) : binary64_value x = (v : ℚ) := by
  have hq : (x.2 : ℚ) ≠ 0 := by exact_mod_cast hpos.ne'
  unfold binary64_value
  rw [h]
  push_cast
  field_simp

/-- The double computation stays within one of the exact formula: for operands that
convert to `double` exactly (rate and timescale below `2^53`) and a count that fits
`uint32_t`, the accumulated rounding error is far below one half. -/
theorem cfr_frame_count_within_one (num den dur ts : Nat) (hden : 0 < den) (hts : 0 < ts)
    (hnum53 : num < 9007199254740992) (hden53 : den < 9007199254740992)
    (hts53 : ts < 9007199254740992)
    (hfit : cfr_frame_count_formula (num : Int) (den : Int) (dur : Int) (ts : Int) + 1
      < 4294967296) :
    cfr_frame_count_formula (num : Int) (den : Int) (dur : Int) (ts : Int) - 1
        ≤ cfr_frame_count (num : Int) (den : Int) (dur : Int) (ts : Int)
    ∧ cfr_frame_count (num : Int) (den : Int) (dur : Int) (ts : Int)
        ≤ cfr_frame_count_formula (num : Int) (den : Int) (dur : Int) (ts : Int) + 1 := by
  have hdenq : (0 : ℚ) < den := by exact_mod_cast hden
  have htsq : (0 : ℚ) < ts := by exact_mod_cast hts
  have hnumq : (0 : ℚ) ≤ num := Nat.cast_nonneg num
  have hdurq : (0 : ℚ) ≤ dur := Nat.cast_nonneg dur
  -- the exact value and its floor
  have hformula : cfr_frame_count_formula (num : Int) (den : Int) (dur : Int) (ts : Int)
      = ⌊(num : ℚ) / (den : ℚ) * ((dur : ℚ) / (ts : ℚ)) + 1 / 2⌋ := by
    unfold cfr_frame_count_formula
    push_cast
    rfl
  rw [hformula] at hfit ⊢
  have hA : (0 : ℚ) ≤ (num : ℚ) / (den : ℚ) := by positivity
  have hB : (0 : ℚ) ≤ (dur : ℚ) / (ts : ℚ) := by positivity
  generalize hAdef : (num : ℚ) / (den : ℚ) = A at hA hfit ⊢
  generalize hBdef : (dur : ℚ) / (ts : ℚ) = B at hB hfit ⊢
  have hfloor_le : ((⌊A * B + 1 / 2⌋ : Int) : ℚ) ≤ A * B + 1 / 2 := Int.floor_le _
  have hlt_floor : A * B + 1 / 2 < ((⌊A * B + 1 / 2⌋ : Int) : ℚ) + 1 := Int.lt_floor_add_one _
  have hfitq : ((⌊A * B + 1 / 2⌋ : Int) : ℚ) + 1 < 4294967296 := by exact_mod_cast hfit
  have hX : 0 ≤ A * B := mul_nonneg hA hB
  have hXlt : A * B < 4294967296 := by linarith
  -- the computation
  unfold cfr_frame_count binary64_add binary64_mul binary64_div binary64_of_int
  simp only [Int.toNat_ofNat]
  have e1 := binary64_round_of_quotient num 1 num (by decide) (mul_one _).symm hnum53
  have e2 := binary64_round_of_quotient den 1 den (by decide) (mul_one _).symm hden53
  have e4 := binary64_round_of_quotient ts 1 ts (by decide) (mul_one _).symm hts53
  have b3 := binary64_value_round_bounds dur 1 (by decide)
  have p1 := binary64_round_den_pos num 1
  have p2 := binary64_round_den_pos den 1
  have p3 := binary64_round_den_pos dur 1
  have p4 := binary64_round_den_pos ts 1
  generalize binary64_round num 1 = x1 at e1 p1 ⊢
  generalize binary64_round den 1 = x2 at e2 p2 ⊢
  generalize binary64_round dur 1 = x3 at b3 p3 ⊢
  generalize binary64_round ts 1 = x4 at e4 p4 ⊢
  have v1 : binary64_value x1 = (num : ℚ) := binary64_value_of_quotient x1 num p1 e1
  have v2 : binary64_value x2 = (den : ℚ) := binary64_value_of_quotient x2 den p2 e2
  have v4 : binary64_value x4 = (ts : ℚ) := binary64_value_of_quotient x4 ts p4 e4
  have hx21 : 0 < x2.1 := by rw [e2]; exact Nat.mul_pos hden p2
  have hx41 : 0 < x4.1 := by rw [e4]; exact Nat.mul_pos hts p4
  have q1 := binary64_value_round_bounds (x1.1 * x2.2) (x1.2 * x2.1) (Nat.mul_pos p1 hx21)
  have q2 := binary64_value_round_bounds (x3.1 * x4.2) (x3.2 * x4.1) (Nat.mul_pos p3 hx41)
  have pq1 := binary64_round_den_pos (x1.1 * x2.2) (x1.2 * x2.1)
  have pq2 := binary64_round_den_pos (x3.1 * x4.2) (x3.2 * x4.1)
  have hq1 : (((x1.1 * x2.2 : Nat) : ℚ)) / ((x1.2 * x2.1 : Nat) : ℚ) = A := by
    rw [← hAdef, ← v1, ← v2]
    unfold binary64_value
    have h1 : (x1.2 : ℚ) ≠ 0 := by exact_mod_cast p1.ne'
    have h2 : (x2.2 : ℚ) ≠ 0 := by exact_mod_cast p2.ne'
    have h3 : (x2.1 : ℚ) ≠ 0 := by exact_mod_cast hx21.ne'
    push_cast
    field_simp
  have hq2 : (((x3.1 * x4.2 : Nat) : ℚ)) / ((x3.2 * x4.1 : Nat) : ℚ)
      = binary64_value x3 / (ts : ℚ) := by
    rw [← v4]
    unfold binary64_value
    have h1 : (x3.2 : ℚ) ≠ 0 := by exact_mod_cast p3.ne'
    have h2 : (x4.2 : ℚ) ≠ 0 := by exact_mod_cast p4.ne'
    have h3 : (x4.1 : ℚ) ≠ 0 := by exact_mod_cast hx41.ne'
    push_cast
    field_simp
  rw [hq1] at q1
  rw [hq2] at q2
  have hdur1 : ((dur : ℚ)) / ((1 : Nat) : ℚ) = (dur : ℚ) := by simp
  rw [hdur1] at b3
  have n3 := binary64_value_nonneg x3
  generalize binary64_value x3 = d3 at b3 q2 n3
  generalize binary64_round (x1.1 * x2.2) (x1.2 * x2.1) = y1 at q1 pq1 ⊢
  generalize binary64_round (x3.1 * x4.2) (x3.2 * x4.1) = y2 at q2 pq2 ⊢
  have m := binary64_value_round_bounds (y1.1 * y2.1) (y1.2 * y2.2) (Nat.mul_pos pq1 pq2)
  have pm := binary64_round_den_pos (y1.1 * y2.1) (y1.2 * y2.2)
  have hm : (((y1.1 * y2.1 : Nat) : ℚ)) / ((y1.2 * y2.2 : Nat) : ℚ)
      = binary64_value y1 * binary64_value y2 := by
    unfold binary64_value
    have h1 : (y1.2 : ℚ) ≠ 0 := by exact_mod_cast pq1.ne'
    have h2 : (y2.2 : ℚ) ≠ 0 := by exact_mod_cast pq2.ne'
    push_cast
    field_simp
  rw [hm] at m
  have ny1 := binary64_value_nonneg y1
  have ny2 := binary64_value_nonneg y2
  generalize binary64_value y1 = a at q1 m ny1
  generalize binary64_value y2 = b at q2 m ny2
  generalize binary64_round (y1.1 * y2.1) (y1.2 * y2.2) = z at m pm ⊢
  have s := binary64_value_round_bounds (z.1 * 2 + 1 * z.2) (z.2 * 2) (by omega)
  have ps := binary64_round_den_pos (z.1 * 2 + 1 * z.2) (z.2 * 2)
  have hs : (((z.1 * 2 + 1 * z.2 : Nat) : ℚ)) / ((z.2 * 2 : Nat) : ℚ)
      = binary64_value z + 1 / 2 := by
    unfold binary64_value
    have h1 : (z.2 : ℚ) ≠ 0 := by exact_mod_cast pm.ne'
    push_cast
    field_simp
  rw [hs] at s
  have nz := binary64_value_nonneg z
  generalize binary64_value z = c at m s nz
  have hw : (((binary64_round (z.1 * 2 + 1 * z.2) (z.2 * 2)).1 : Int)
        / ((binary64_round (z.1 * 2 + 1 * z.2) (z.2 * 2)).2 : Int))
      = ⌊binary64_value (binary64_round (z.1 * 2 + 1 * z.2) (z.2 * 2))⌋ := by
    unfold binary64_value
    rw [← Rat.floor_intCast_div_natCast]
    push_cast
    rfl
  show _ ≤ to_uint32 (((binary64_round (z.1 * 2 + 1 * z.2) (z.2 * 2)).1 : Int)
        / ((binary64_round (z.1 * 2 + 1 * z.2) (z.2 * 2)).2 : Int))
    ∧ to_uint32 (((binary64_round (z.1 * 2 + 1 * z.2) (z.2 * 2)).1 : Int)
        / ((binary64_round (z.1 * 2 + 1 * z.2) (z.2 * 2)).2 : Int)) ≤ _
  rw [hw]
  generalize binary64_value (binary64_round (z.1 * 2 + 1 * z.2) (z.2 * 2)) = f at s
  -- the accumulated error
  have hu0 : (0 : ℚ) ≤ 1 - 1 / 9007199254740992 := by norm_num
  have hu1 : (0 : ℚ) ≤ 1 + 1 / 9007199254740992 := by norm_num
  have hd3_up : d3 / (ts : ℚ) ≤ (1 + 1 / 9007199254740992) * B := by
    rw [← hBdef, ← mul_div_assoc]
    exact div_le_div_of_nonneg_right b3.2 htsq.le
  have hd3_lo : (1 - 1 / 9007199254740992) * B ≤ d3 / (ts : ℚ) := by
    rw [← hBdef, ← mul_div_assoc]
    exact div_le_div_of_nonneg_right b3.1 htsq.le
  have hb_up : b ≤ (1 + 1 / 9007199254740992) * ((1 + 1 / 9007199254740992) * B) :=
    le_trans q2.2 (mul_le_mul_of_nonneg_left hd3_up hu1)
  have hb_lo : (1 - 1 / 9007199254740992) * ((1 - 1 / 9007199254740992) * B) ≤ b :=
    le_trans (mul_le_mul_of_nonneg_left hd3_lo hu0) q2.1
  have hab_up : a * b ≤ ((1 + 1 / 9007199254740992) * A)
      * ((1 + 1 / 9007199254740992) * ((1 + 1 / 9007199254740992) * B)) :=
    mul_le_mul q1.2 hb_up ny2 (mul_nonneg hu1 hA)
  have hab_lo : ((1 - 1 / 9007199254740992) * A)
      * ((1 - 1 / 9007199254740992) * ((1 - 1 / 9007199254740992) * B)) ≤ a * b :=
    mul_le_mul q1.1 hb_lo (mul_nonneg hu0 (mul_nonneg hu0 hB)) ny1
  have hc_up := le_trans m.2 (mul_le_mul_of_nonneg_left hab_up hu1)
  have hc_lo := le_trans (mul_le_mul_of_nonneg_left hab_lo hu0) m.1
  have hf_up := le_trans s.2 (mul_le_mul_of_nonneg_left (add_le_add_right hc_up (1 / 2)) hu1)
  have hf_lo := le_trans (mul_le_mul_of_nonneg_left (add_le_add_right hc_lo (1 / 2)) hu0) s.1
  have hk_up : (1 + 1 / 9007199254740992 : ℚ) ^ 5 ≤ 1 + 6 / 9007199254740992 := by norm_num
  have hk_lo : 1 - 5 / 9007199254740992 ≤ (1 - 1 / 9007199254740992 : ℚ) ^ 5 := by norm_num
  have hX_up := mul_le_mul_of_nonneg_right hk_up hX
  have hX_lo := mul_le_mul_of_nonneg_right hk_lo hX
  have e_up : (1 + 1 / 9007199254740992) * ((1 + 1 / 9007199254740992)
        * (((1 + 1 / 9007199254740992) * A)
          * ((1 + 1 / 9007199254740992) * ((1 + 1 / 9007199254740992) * B))) + 1 / 2)
      = (1 + 1 / 9007199254740992 : ℚ) ^ 5 * (A * B) + (1 + 1 / 9007199254740992) / 2 := by
    ring
  have e_lo : (1 - 1 / 9007199254740992) * ((1 - 1 / 9007199254740992)
        * (((1 - 1 / 9007199254740992) * A)
          * ((1 - 1 / 9007199254740992) * ((1 - 1 / 9007199254740992) * B))) + 1 / 2)
      = (1 - 1 / 9007199254740992 : ℚ) ^ 5 * (A * B) + (1 - 1 / 9007199254740992) / 2 := by
    ring
  rw [e_up] at hf_up
  rw [e_lo] at hf_lo
  have hf0 : 0 ≤ f :=
    le_trans (mul_nonneg hu0 (add_nonneg nz (by norm_num))) s.1
  have hfl_up : ⌊f⌋ < ⌊A * B + 1 / 2⌋ + 2 := by
    apply Int.floor_lt.mpr
    push_cast
    linarith
  have hfl_lo : ⌊A * B + 1 / 2⌋ - 1 ≤ ⌊f⌋ := by
    apply Int.le_floor.mpr
    push_cast
    linarith
  have hfl0 : 0 ≤ ⌊f⌋ := Int.floor_nonneg.mpr hf0
  rw [to_uint32_of_range hfl0 (by omega)]
  constructor <;> omega

theorem cfr_frame_count_near_formula (num den media_duration media_timescale : Int)
    (hnum : 0 ≤ num) (hnum53 : num < 9007199254740992)
    (hden : 0 < den) (hden53 : den < 9007199254740992)
    (hdur : 0 ≤ media_duration)
    (hts : 0 < media_timescale) (hts53 : media_timescale < 9007199254740992)
    (hfit : cfr_frame_count_formula num den media_duration media_timescale + 1 < 4294967296) :
    cfr_frame_count_formula num den media_duration media_timescale - 1
        ≤ cfr_frame_count num den media_duration media_timescale
    ∧ cfr_frame_count num den media_duration media_timescale
        ≤ cfr_frame_count_formula num den media_duration media_timescale + 1 := by
  lift num to Nat using hnum
  lift den to Nat using hden.le
  lift media_duration to Nat using hdur
  lift media_timescale to Nat using hts.le
  exact cfr_frame_count_within_one num den media_duration media_timescale
    (by exact_mod_cast hden) (by exact_mod_cast hts) (by exact_mod_cast hnum53)
    (by exact_mod_cast hden53) (by exact_mod_cast hts53) hfit

/-- C7, as the claim states it, fails: with CFR remapping to 25/1 and a media duration
of 580 ticks of 1/1000 second, `prepare_video_decoding` succeeds and leaves 14 in
`voh.frame_count` and `video_sample_count`, while
`floor(25/1 * 580/1000 + 0.5)` is 15 (the quotient `580/1000` and the product are
rounded down in `double`, to just below 14.5). -/
theorem prepare_video_decoding_frame_count_counterexample :
    (handler_video_bound 580 1000 15).priv.vdh.ctx = true
    ∧ (video_preparation_cfr 25 1).vfr2cfr_active ≠ 0
    ∧ (prepare_video_decoding (video_preparation_cfr 25 1) (handler_video_bound 580 1000 15)).1
        = 0
    ∧ (prepare_video_decoding (video_preparation_cfr 25 1)
          (handler_video_bound 580 1000 15)).2.priv.voh.frame_count = 14
    ∧ (prepare_video_decoding (video_preparation_cfr 25 1)
          (handler_video_bound 580 1000 15)).2.video_sample_count = 14
    ∧ cfr_frame_count_formula 25 1 580 1000 = 15 := by
  refine ⟨by decide, by decide, by decide, by decide, by decide, ?_⟩
  unfold cfr_frame_count_formula
  rw [Int.floor_eq_iff]
  norm_num

/-- C7, amended: after a successful `prepare_video_decoding` on a bound video track,
`video_sample_count` is `voh.frame_count`.  With CFR remapping active the count is
the `double` evaluation of
`((double)cfr_num / cfr_den) * ((double)media_duration / media_timescale) + 0.5`,
every operation rounded to nearest, truncated to an integer.  For a rate and a
timescale inside `uint32_t` and a count that fits `uint32_t` it is within one of
`floor(num/den * media_duration/media_timescale + 0.5)`, and it equals that value
whenever `den` divides `num` and `media_timescale` divides `media_duration` (the
duration below `2^53`).  Without CFR remapping the count is the track's
`sample_count`. -/
theorem prepare_video_decoding_frame_count (q : video_preparation) (h : lsmash_handler_t)
    (hctx : h.priv.vdh.ctx = true) (hret : (prepare_video_decoding q h).1 = 0) :
    (prepare_video_decoding q h).2.video_sample_count
        = (prepare_video_decoding q h).2.priv.voh.frame_count
    ∧ (q.vfr2cfr_active ≠ 0 →
        (prepare_video_decoding q h).2.priv.voh.frame_count
          = cfr_frame_count (to_uint32 q.vfr2cfr_framerate_num)
              (to_uint32 q.vfr2cfr_framerate_den) h.priv.vdh.media_duration
              h.priv.vdh.media_timescale
        ∧ (0 ≤ q.vfr2cfr_framerate_num → q.vfr2cfr_framerate_num < 4294967296 →
            0 < q.vfr2cfr_framerate_den → q.vfr2cfr_framerate_den < 4294967296 →
            0 ≤ h.priv.vdh.media_duration → h.priv.vdh.media_duration < 9007199254740992 →
            0 < h.priv.vdh.media_timescale → h.priv.vdh.media_timescale < 4294967296 →
            q.vfr2cfr_framerate_den ∣ q.vfr2cfr_framerate_num →
            h.priv.vdh.media_timescale ∣ h.priv.vdh.media_duration →
            q.vfr2cfr_framerate_num / q.vfr2cfr_framerate_den
              * (h.priv.vdh.media_duration / h.priv.vdh.media_timescale) < 4294967296 →
            (prepare_video_decoding q h).2.priv.voh.frame_count
              = cfr_frame_count_formula q.vfr2cfr_framerate_num q.vfr2cfr_framerate_den
                  h.priv.vdh.media_duration h.priv.vdh.media_timescale)
        ∧ (0 ≤ q.vfr2cfr_framerate_num → q.vfr2cfr_framerate_num < 4294967296 →
            0 < q.vfr2cfr_framerate_den → q.vfr2cfr_framerate_den < 4294967296 →
            0 ≤ h.priv.vdh.media_duration →
            0 < h.priv.vdh.media_timescale → h.priv.vdh.media_timescale < 4294967296 →
            cfr_frame_count_formula q.vfr2cfr_framerate_num q.vfr2cfr_framerate_den
                h.priv.vdh.media_duration h.priv.vdh.media_timescale + 1 < 4294967296 →
            cfr_frame_count_formula q.vfr2cfr_framerate_num q.vfr2cfr_framerate_den
                  h.priv.vdh.media_duration h.priv.vdh.media_timescale - 1
                ≤ (prepare_video_decoding q h).2.priv.voh.frame_count
            ∧ (prepare_video_decoding q h).2.priv.voh.frame_count
                ≤ cfr_frame_count_formula q.vfr2cfr_framerate_num q.vfr2cfr_framerate_den
                    h.priv.vdh.media_duration h.priv.vdh.media_timescale + 1))
    ∧ (q.vfr2cfr_active = 0 →
        (prepare_video_decoding q h).2.priv.voh.frame_count = h.priv.vdh.sample_count
        ∧ (prepare_video_decoding q h).2.video_sample_count = h.priv.vdh.sample_count) := by
  obtain ⟨hsame, hcfr, hvfr⟩ := prepare_video_decoding_frame_count_eq q h hctx hret
  refine ⟨hsame, ?_, ?_⟩
  · intro hactive
    refine ⟨hcfr hactive, ?_, ?_⟩
    · intro hn0 hn1 hd0 hd1 hm0 hm1 ht0 ht1 hrate hseconds hcount
      rw [hcfr hactive, to_uint32_of_range hn0 hn1, to_uint32_of_range hd0.le hd1]
      obtain ⟨hcode, hformula⟩ := cfr_frame_count_eq_formula q.vfr2cfr_framerate_num
        q.vfr2cfr_framerate_den h.priv.vdh.media_duration h.priv.vdh.media_timescale
        hn0 (by omega) hd0 (by omega) hm0 hm1 ht0 (by omega) hrate hseconds hcount
      rw [hcode, hformula]
    · intro hn0 hn1 hd0 hd1 hm0 ht0 ht1 hfit
      rw [hcfr hactive, to_uint32_of_range hn0 hn1, to_uint32_of_range hd0.le hd1]
      exact cfr_frame_count_near_formula q.vfr2cfr_framerate_num q.vfr2cfr_framerate_den
        h.priv.vdh.media_duration h.priv.vdh.media_timescale hn0 (by omega) hd0 (by omega)
        hm0 ht0 (by omega) hfit
  · intro hinactive
    exact ⟨hvfr hinactive, hsame.trans (hvfr hinactive)⟩

theorem prepare_video_decoding_frame_count_witness :
    ((handler_video_bound 100000 1000 2997).priv.vdh.ctx = true
      ∧ (prepare_video_decoding (video_preparation_cfr 30 1)
          (handler_video_bound 100000 1000 2997)).1 = 0
      ∧ (video_preparation_cfr 30 1).vfr2cfr_active ≠ 0
      ∧ (prepare_video_decoding video_preparation_vfr
          (handler_video_bound 100000 1000 2997)).1 = 0
      ∧ video_preparation_vfr.vfr2cfr_active = 0)
    ∧ cfr_frame_count_formula 30 1 100000 1000 = 3000
    ∧ (prepare_video_decoding (video_preparation_cfr 30 1)
          (handler_video_bound 100000 1000 2997)).2.priv.voh.frame_count = 3000
    ∧ (prepare_video_decoding (video_preparation_cfr 30 1)
          (handler_video_bound 100000 1000 2997)).2.video_sample_count = 3000
    ∧ (prepare_video_decoding video_preparation_vfr
          (handler_video_bound 100000 1000 2997)).2.priv.voh.frame_count = 2997
    ∧ (prepare_video_decoding video_preparation_vfr
          (handler_video_bound 100000 1000 2997)).2.video_sample_count = 2997
    ∧ cfr_frame_count_formula 25 1 580 1000 - 1
        ≤ (prepare_video_decoding (video_preparation_cfr 25 1)
            (handler_video_bound 580 1000 15)).2.priv.voh.frame_count := by
  have hctx : (handler_video_bound 100000 1000 2997).priv.vdh.ctx = true := by decide
  have hret : (prepare_video_decoding (video_preparation_cfr 30 1)
      (handler_video_bound 100000 1000 2997)).1 = 0 := by decide
  have hactive : (video_preparation_cfr 30 1).vfr2cfr_active ≠ 0 := by decide
  have hret' : (prepare_video_decoding video_preparation_vfr
      (handler_video_bound 100000 1000 2997)).1 = 0 := by decide
  have hinactive : video_preparation_vfr.vfr2cfr_active = 0 := by decide
  have hformula : cfr_frame_count_formula 30 1 100000 1000 = 3000 :=
    (cfr_frame_count_eq_formula 30 1 100000 1000 (by decide) (by decide) (by decide)
      (by decide) (by decide) (by decide) (by decide) (by decide) (by decide) (by decide)
      (by decide)).2.trans (by decide)
  obtain ⟨hsame, hcfr, _⟩ := prepare_video_decoding_frame_count (video_preparation_cfr 30 1)
    (handler_video_bound 100000 1000 2997) hctx hret
  have hcount := (hcfr hactive).2.1 (by decide) (by decide) (by decide) (by decide)
    (by decide) (by decide) (by decide) (by decide) (by decide) (by decide) (by decide)
  have hcount' : (prepare_video_decoding (video_preparation_cfr 30 1)
      (handler_video_bound 100000 1000 2997)).2.priv.voh.frame_count = 3000 :=
    hcount.trans hformula
  obtain ⟨_, _, hvfr⟩ := prepare_video_decoding_frame_count video_preparation_vfr
    (handler_video_bound 100000 1000 2997) hctx hret'
  have hfifteen : cfr_frame_count_formula 25 1 580 1000 = 15 := by
    unfold cfr_frame_count_formula
    rw [Int.floor_eq_iff]
    norm_num
  obtain ⟨_, hcfr25, _⟩ := prepare_video_decoding_frame_count (video_preparation_cfr 25 1)
    (handler_video_bound 580 1000 15) (by decide) (by decide)
  have hnear := (hcfr25 (by decide)).2.2 (by decide) (by decide) (by decide) (by decide)
    (by decide) (by decide) (by decide)
    (by show cfr_frame_count_formula 25 1 580 1000 + 1 < 4294967296; rw [hfifteen]; decide)
  exact ⟨⟨hctx, hret, hactive, hret', hinactive⟩, hformula, hcount', hsame.trans hcount',
    (hvfr hinactive).1, (hvfr hinactive).2, hnear.1⟩

end LibavsmashInput
